import Mathlib

/-!
Verification development for the Wave-C compiler (`src/wave5.c`).

The compiler is shallowly embedded: the code buffer is a `List Nat` of byte
values (each `< 256`, enforced by `emit_byte` taking values mod 256, exactly as
the C truncates to `uint8_t` at the call boundary); the write cursor `code_pos`
is the length of that list.  Machine integers are modelled as `Nat`/`Int` with
explicit `% 2^w` at the points where the C code truncates.  Source text is a
`List Nat` of byte values, with the position cursor as in the C `Compiler`
struct.  C loops whose iteration count is bounded by the number of source bytes
they consume are modelled with an explicit budget instantiated to that bound;
the mutually recursive compile functions take a fuel parameter.

The "inert telemetry" subsystem (`UnifiedField`, `TileManager`, `FateScheduler`)
computes with C `double`s, which have no shallow embedding here; it is modelled
as an abstract state type `T` together with an abstract record of the operations
the compilation path applies to it (`TelOps`).  Every theorem about telemetry
quantifies over all such `T` and operations, which subsumes the concrete
floating-point instance in the C code.
-/

namespace Wave

set_option maxRecDepth 1000000
set_option maxHeartbeats 2000000

/-- Little-endian bytes of the low 32 bits of `n` (as written by `emit_u32`
and by the byte-masking in `resolve_fixups`). -/
def le32 (n : Nat) : List Nat :=
  [n % 256, n / 256 % 256, n / 65536 % 256, n / 16777216 % 256]

/-- Little-endian bytes of the low 64 bits of `n`. -/
def le64 (n : Nat) : List Nat :=
  le32 (n % 4294967296) ++ le32 (n / 4294967296 % 4294967296)

/-- Two's-complement value of an `Int` as an unsigned 32-bit `Nat`
(the C cast `(uint32_t)v`). -/
def toU32 (v : Int) : Nat := (v % (4294967296 : Int)).toNat

/-- Two's-complement value of an `Int` as an unsigned 64-bit `Nat`
(the C cast `(uint64_t)v`). -/
def toU64 (v : Int) : Nat := (v % (18446744073709551616 : Int)).toNat

/-- The C cast `(int)v` (wrap to signed 32-bit). -/
def i32wrap (v : Int) : Int :=
  (v + 2147483648) % 4294967296 - 2147483648

/-- Bytes of a Lean string literal, used to transcribe the C string literals
of `wave5.c` (all ASCII). -/
def strB (s : String) : List Nat := s.toList.map (fun ch => ch.toNat % 256)

/-- Decimal digit bytes of `n` (the `%d` of `sprintf`), via an explicit
budget (`n` has fewer than `f` digits whenever `n < 10^f`). -/
def natDigitsA : Nat → Nat → List Nat
  | 0, _ => []
  | _ + 1, n =>
    if n < 10 then [48 + n]
    else natDigitsA (n / 10).succ (n / 10) ++ [48 + n % 10]

def natDigits (n : Nat) : List Nat := natDigitsA (n + 1) n

-- ── character class predicates (ASCII, the default C locale) ──────────────

def isDigitB (n : Nat) : Bool := 48 ≤ n && n ≤ 57

def isAlphaB (n : Nat) : Bool := (65 ≤ n && n ≤ 90) || (97 ≤ n && n ≤ 122)

def isAlnumB (n : Nat) : Bool := isAlphaB n || isDigitB n

def isXdigitB (n : Nat) : Bool :=
  isDigitB n || (97 ≤ n && n ≤ 102) || (65 ≤ n && n ≤ 70)

/-- `is_ident_start` -/
def is_ident_start (n : Nat) : Bool := isAlphaB n || n == 95

/-- `is_ident_char` (dot is an identifier character) -/
def is_ident_char (n : Nat) : Bool := isAlnumB n || n == 95 || n == 46

-- ── data model: variables, functions, the CodeGen struct ──────────────────

/-- `Variable` (`int_val`, `float_val`, `str_val` are written but never read
on any path that influences compilation, and are omitted; `type` is kept). -/
structure Var where
  name : List Nat
  ty : Nat
  is_param : Bool
  is_global : Bool
  global_addr : Nat
  stack_offset : Int
  deriving DecidableEq

/-- `Function` -/
structure Func where
  name : List Nat
  code_offset : Nat
  param_count : Nat
  params : List (List Nat)
  body_pos : Nat
  body_end : Nat
  deriving DecidableEq

def fnDefault : Func := ⟨[], 0, 0, [], 0, 0⟩

def MAX_CODE : Nat := 4194304
def MAX_VARS : Nat := 4096
def MAX_FUNCS : Nat := 2048
def MAX_LABELS : Nat := 8192

/-- `CodeGen`.  `code_pos` is `code.length` and `data_pos` is `data.length`;
`var_count`, `func_count` (outside the pass-2 window), `fixup_count` and
`label_count` are the lengths of the respective lists.  During pass 2 the C
code temporarily resets `func_count` to 0 while keeping the array, so
`func_count` is a separate field with `func_count ≤ funcs.length`. -/
structure CodeGen where
  code : List Nat
  data : List Nat
  vars : List Var
  stack_size : Nat
  global_var_count : Nat
  global_data_pos : Nat
  funcs : List Func
  func_count : Nat
  fixups : List (Nat × List Nat)
  labels : List (List Nat × Nat)
  when_id : Nat
  loop_id : Nat
  in_function : Bool
  deriving DecidableEq

def cg0 : CodeGen := ⟨[], [], [], 0, 0, 0, [], 0, [], [], 0, 0, false⟩

-- ── byte emission ─────────────────────────────────────────────────────────

/-- `emit_byte`: appends one byte if the cursor is below capacity, else drops
it.  The C parameter is `uint8_t`, so the value is taken mod 256 here (the
truncation the C call boundary performs). -/
def emit_byte (cg : CodeGen) (b : Nat) : CodeGen :=
  if cg.code.length < MAX_CODE then { cg with code := cg.code ++ [b % 256] }
  else cg

def emit_bytes (cg : CodeGen) (bs : List Nat) : CodeGen := bs.foldl emit_byte cg

/-- `emit_u32` -/
def emit_u32 (cg : CodeGen) (v : Nat) : CodeGen :=
  emit_bytes cg [v % 256, v / 256 % 256, v / 65536 % 256, v / 16777216 % 256]

/-- `emit_i32` -/
def emit_i32 (cg : CodeGen) (v : Int) : CodeGen := emit_u32 cg (toU32 v)

/-- `emit_u64` -/
def emit_u64 (cg : CodeGen) (v : Nat) : CodeGen :=
  emit_u32 (emit_u32 cg (v % 4294967296)) (v / 4294967296 % 4294967296)

-- ── labels and fixups ─────────────────────────────────────────────────────

/-- `add_label` -/
def add_label (cg : CodeGen) (name : List Nat) : CodeGen :=
  if cg.labels.length < MAX_LABELS then
    { cg with labels := cg.labels ++ [(name, cg.code.length)] }
  else cg

/-- `add_fixup`: records the position if there is room, and always emits the
four placeholder zero bytes. -/
def add_fixup (cg : CodeGen) (label : List Nat) : CodeGen :=
  let cg' :=
    if cg.fixups.length < MAX_LABELS then
      { cg with fixups := cg.fixups ++ [(cg.code.length, label)] }
    else cg
  emit_u32 cg' 0

/-- First label in the table with the given name (the inner loop of
`resolve_fixups` breaks at the first `strcmp` match). -/
def findLabelPos : List (List Nat × Nat) → List Nat → Option Nat
  | [], _ => none
  | (nm, p) :: ls, s => if nm == s then some p else findLabelPos ls s

/-- The four bytes `resolve_fixups` writes: the low 32 bits, two's complement,
of `target - (fix_pos + 4)` (C computes this in `size_t` and truncates to
`int32_t`; gcc's arithmetic right shift makes the four masked bytes the
little-endian bytes of that value mod 2^32). -/
def fixEnc (target pos : Nat) : Nat :=
  (((target : Int) - (pos : Int) - 4) % (4294967296 : Int)).toNat

/-- Write the four little-endian bytes of `v` (a 32-bit value) at `p`
(`List.set` is a no-op out of bounds; the C code would write out of bounds
only when a fixup was recorded at full capacity, which the theorems exclude). -/
def patch4 (code : List Nat) (p v : Nat) : List Nat :=
  ((((code.set p (v % 256)).set (p + 1)
      (v / 256 % 256)).set (p + 2) (v / 65536 % 256)).set (p + 3)
      (v / 16777216 % 256))

def resolveOne (labels : List (List Nat × Nat)) (code : List Nat)
    (f : Nat × List Nat) : List Nat :=
  match findLabelPos labels f.2 with
  | some t => patch4 code f.1 (fixEnc t f.1)
  | none => code

/-- `resolve_fixups` -/
def resolve_fixups (cg : CodeGen) : CodeGen :=
  { cg with code := cg.fixups.foldl (resolveOne cg.labels) cg.code }

/-- The four bytes of the code buffer at offset `p` (zero-filled out of
bounds, matching the zero-initialized placeholder semantics). -/
def read4 (code : List Nat) (p : Nat) : List Nat :=
  [code.getD p 0, code.getD (p + 1) 0, code.getD (p + 2) 0, code.getD (p + 3) 0]

-- ── variable and function lookup ──────────────────────────────────────────

/-- `find_var`: scans from the most recently added variable backwards. -/
def find_var (vars : List Var) (name : List Nat) : Option Var :=
  vars.reverse.find? (fun v => v.name == name)

/-- `add_var` (the caller's `VarType` argument is always `VAR_INT` = 0).
Returns `none` exactly when the table is full (the C `NULL`). -/
def add_var (cg : CodeGen) (name : List Nat) (ty : Nat) :
    Option (CodeGen × Var) :=
  if cg.vars.length ≥ MAX_VARS then none
  else if cg.in_function then
    let ss := cg.stack_size + 8
    let v : Var := ⟨name, ty, false, false, 0, -(ss : Int)⟩
    some ({ cg with vars := cg.vars ++ [v], stack_size := ss }, v)
  else
    let v : Var := ⟨name, ty, false, true, 6291456 + cg.global_data_pos, 0⟩
    some ({ cg with vars := cg.vars ++ [v],
                    global_data_pos := cg.global_data_pos + 8,
                    global_var_count := cg.global_var_count + 1 }, v)

/-- Store a function record at index `i` (the C writes into `funcs[i]`;
`func_count ≤ funcs.length` is maintained so `i = funcs.length` appends). -/
def setFunc (l : List Func) (i : Nat) (f : Func) : List Func :=
  if i < l.length then l.set i f else l ++ [f]

-- ── x86-64 instruction generation ─────────────────────────────────────────

def gen_push_rbp (cg : CodeGen) : CodeGen := emit_byte cg 0x55
def gen_pop_rbp (cg : CodeGen) : CodeGen := emit_byte cg 0x5d
def gen_push_rax (cg : CodeGen) : CodeGen := emit_byte cg 0x50
def gen_pop_rax (cg : CodeGen) : CodeGen := emit_byte cg 0x58
def gen_pop_rbx (cg : CodeGen) : CodeGen := emit_byte cg 0x5b
def gen_mov_rbp_rsp (cg : CodeGen) : CodeGen := emit_bytes cg [0x48, 0x89, 0xe5]
def gen_mov_rsp_rbp (cg : CodeGen) : CodeGen := emit_bytes cg [0x48, 0x89, 0xec]
def gen_ret (cg : CodeGen) : CodeGen := emit_byte cg 0xc3
def gen_syscall (cg : CodeGen) : CodeGen := emit_bytes cg [0x0f, 0x05]
def gen_pause (cg : CodeGen) : CodeGen := emit_bytes cg [0xf3, 0x90]

def gen_sub_rsp (cg : CodeGen) (n : Int) : CodeGen :=
  emit_i32 (emit_bytes cg [0x48, 0x81, 0xec]) n

def gen_add_rsp (cg : CodeGen) (n : Int) : CodeGen :=
  emit_i32 (emit_bytes cg [0x48, 0x81, 0xc4]) n

def gen_mov_rax_imm (cg : CodeGen) (v : Int) : CodeGen :=
  emit_u64 (emit_bytes cg [0x48, 0xb8]) (toU64 v)

def gen_mov_rdi_imm (cg : CodeGen) (v : Int) : CodeGen :=
  emit_u64 (emit_bytes cg [0x48, 0xbf]) (toU64 v)

def gen_mov_rsi_imm (cg : CodeGen) (v : Int) : CodeGen :=
  emit_u64 (emit_bytes cg [0x48, 0xbe]) (toU64 v)

def gen_mov_rdx_imm (cg : CodeGen) (v : Int) : CodeGen :=
  emit_u64 (emit_bytes cg [0x48, 0xba]) (toU64 v)

def gen_mov_rdi_rax (cg : CodeGen) : CodeGen := emit_bytes cg [0x48, 0x89, 0xc7]
def gen_mov_rsi_rax (cg : CodeGen) : CodeGen := emit_bytes cg [0x48, 0x89, 0xc6]
def gen_mov_rdx_rax (cg : CodeGen) : CodeGen := emit_bytes cg [0x48, 0x89, 0xc2]

def gen_mov_rax_rbp_off (cg : CodeGen) (off : Int) : CodeGen :=
  emit_i32 (emit_bytes cg [0x48, 0x8b, 0x85]) off

def gen_mov_rbp_off_rax (cg : CodeGen) (off : Int) : CodeGen :=
  emit_i32 (emit_bytes cg [0x48, 0x89, 0x85]) off

def gen_mov_rax_abs (cg : CodeGen) (addr : Nat) : CodeGen :=
  emit_bytes (emit_u64 (emit_bytes cg [0x48, 0xb8]) (addr % 18446744073709551616))
    [0x48, 0x8b, 0x00]

def gen_mov_abs_rax (cg : CodeGen) (addr : Nat) : CodeGen :=
  emit_bytes
    (emit_byte
      (emit_u64 (emit_bytes (emit_byte cg 0x50) [0x48, 0xbb])
        (addr % 18446744073709551616)) 0x58)
    [0x48, 0x89, 0x03]

/-- `gen_load_var` -/
def gen_load_var (v : Var) (cg : CodeGen) : CodeGen :=
  if v.is_global then gen_mov_rax_abs cg v.global_addr
  else gen_mov_rax_rbp_off cg v.stack_offset

/-- `gen_store_var` -/
def gen_store_var (v : Var) (cg : CodeGen) : CodeGen :=
  if v.is_global then gen_mov_abs_rax cg v.global_addr
  else gen_mov_rbp_off_rax cg v.stack_offset

def gen_mul_rax_rbx (cg : CodeGen) : CodeGen :=
  emit_bytes cg [0x48, 0x0f, 0xaf, 0xc3]

def gen_div_rax_rbx (cg : CodeGen) : CodeGen :=
  emit_bytes (emit_bytes cg [0x48, 0x99]) [0x48, 0xf7, 0xfb]

def gen_test_rax_rax (cg : CodeGen) : CodeGen := emit_bytes cg [0x48, 0x85, 0xc0]

def gen_je (cg : CodeGen) (label : List Nat) : CodeGen :=
  add_fixup (emit_bytes cg [0x0f, 0x84]) label

def gen_jne (cg : CodeGen) (label : List Nat) : CodeGen :=
  add_fixup (emit_bytes cg [0x0f, 0x85]) label

def gen_jmp (cg : CodeGen) (label : List Nat) : CodeGen :=
  add_fixup (emit_byte cg 0xe9) label

def gen_call (cg : CodeGen) (label : List Nat) : CodeGen :=
  add_fixup (emit_byte cg 0xe8) label

def gen_exit (cg : CodeGen) (code : Int) : CodeGen :=
  gen_syscall (gen_mov_rdi_imm (gen_mov_rax_imm cg 60) code)

def gen_exit_rax (cg : CodeGen) : CodeGen :=
  gen_syscall (gen_mov_rax_imm (emit_bytes cg [0x48, 0x89, 0xc7]) 60)

def gen_prologue (cg : CodeGen) : CodeGen := gen_mov_rbp_rsp (gen_push_rbp cg)

def gen_epilogue (cg : CodeGen) : CodeGen :=
  gen_ret (gen_pop_rbp (gen_mov_rsp_rbp cg))

def gen_event_loop (cg : CodeGen) : CodeGen :=
  emit_bytes (gen_pause cg) [0xeb, 0xfc]

-- ── ELF generator ─────────────────────────────────────────────────────────

/-- The 64 header bytes `write_elf` assembles (`ehdr`). -/
def ehdrBytes : List Nat :=
  [0x7f, 0x45, 0x4c, 0x46, 2, 1, 1, 0, 0, 0, 0, 0, 0, 0, 0, 0,
   2, 0, 0x3e, 0, 1, 0, 0, 0] ++
  le64 (4194304 + 120) ++ le64 64 ++
  [0, 0, 0, 0, 0, 0, 0, 0, 0, 0, 0, 0, 64, 0, 56, 0, 1, 0, 0, 0, 0, 0, 0, 0]

/-- `global_size` in `write_elf`: `global_data_pos` if positive, else `0x1000`. -/
def elfGlobalSize (cg : CodeGen) : Nat :=
  if 0 < cg.global_data_pos then cg.global_data_pos else 4096

/-- The 56 program-header bytes (`phdr`): `p_type=1`, `p_flags=7`,
`p_offset=0`, vaddr/paddr `0x400000`, `p_filesz = 120 + code + data`,
`p_memsz = 0x600000 - 0x400000 + global_size + 0x10000`, align `0x1000`. -/
def phdrBytes (cg : CodeGen) : List Nat :=
  le32 1 ++ le32 7 ++ le64 0 ++ le64 4194304 ++ le64 4194304 ++
  le64 (120 + (cg.code.length + cg.data.length)) ++
  le64 (6291456 - 4194304 + elfGlobalSize cg + 65536) ++
  le64 4096

/-- The byte stream `write_elf` writes on success. -/
def elf_bytes (cg : CodeGen) : List Nat :=
  ehdrBytes ++ phdrBytes cg ++ cg.code ++ cg.data

-- ── the compiler state without telemetry ──────────────────────────────────

/-- The telemetry-free part of the C `Compiler` struct: the source bytes with
the cursor, the loop-label stack (`loop_depth` is its length; the C array
entries above the depth are never read, so a capped stack is equivalent), and
the `CodeGen`.  `current_func` is written but never read and is omitted;
`fate_mode` lives with the telemetry (see `TelOps`). -/
structure Core where
  src : List Nat
  pos : Nat
  loops : List (List Nat × List Nat)
  cg : CodeGen
  deriving DecidableEq

-- ── parsing helpers ───────────────────────────────────────────────────────

/-- `peek` -/
def peekC (k : Core) : Nat := k.src.getD k.pos 0

/-- `peek_n` -/
def peekN (k : Core) (n : Nat) : Nat :=
  if k.pos + n < k.src.length then k.src.getD (k.pos + n) 0 else 0

/-- `advance` (the returned character is read separately with `peekC`) -/
def adv (k : Core) : Core :=
  if k.pos < k.src.length then { k with pos := k.pos + 1 } else k

/-- `c->pos += n` (used after a successful keyword match) -/
def advN (k : Core) (n : Nat) : Core := { k with pos := k.pos + n }

/-- `match`: bounds check plus `strncmp` at the cursor. -/
def src_match (k : Core) (s : List Nat) : Bool :=
  decide (s = (k.src.drop k.pos).take s.length)

/-- Loop body of `skip_line`; consumes one byte per step while short of a
newline, so the budget `src.length - pos + 1` covers every C iteration. -/
def skipLineA : Nat → Core → Core
  | 0, k => k
  | f + 1, k =>
    if k.pos < k.src.length && peekC k != 10 then skipLineA f (adv k) else k

/-- `skip_line` -/
def skip_line (k : Core) : Core :=
  let k := skipLineA (k.src.length - k.pos + 1) k
  if peekC k == 10 then adv k else k

/-- Loop body of `skip_whitespace`: each C iteration either stops or consumes
at least one byte, so the budget `src.length - pos + 1` is sufficient. -/
def skipWsA : Nat → Core → Core
  | 0, k => k
  | f + 1, k =>
    if k.pos < k.src.length then
      let ch := peekC k
      if ch == 32 || ch == 9 || ch == 10 || ch == 13 then skipWsA f (adv k)
      else if ch == 47 && peekN k 1 == 47 then
        skipWsA f (skip_line (adv (adv k)))
      else k
    else k

/-- `skip_whitespace` (a `//` comment is skipped to past the newline, which is
the combined effect of its inner loops; `skip_line` has that exact shape). -/
def skip_whitespace (k : Core) : Core := skipWsA (k.src.length - k.pos + 1) k

/-- Loop of `parse_ident` (`bi < MAX_IDENT - 1` keeps at most 255 bytes). -/
def parseIdentA : Nat → Core → List Nat → Core × List Nat
  | 0, k, acc => (k, acc.reverse)
  | f + 1, k, acc =>
    if k.pos < k.src.length && is_ident_char (peekC k) && acc.length < 255 then
      parseIdentA f (adv k) (peekC k :: acc)
    else (k, acc.reverse)

/-- `parse_ident` -/
def parse_ident (k : Core) : Core × List Nat :=
  parseIdentA (k.src.length - k.pos + 1) k []

/-- Value of one hex digit byte. -/
def hexDigitVal (n : Nat) : Nat :=
  if isDigitB n then n - 48
  else if 97 ≤ n && n ≤ 102 then n - 87
  else if 65 ≤ n && n ≤ 70 then n - 55
  else 0

/-- The value `(char)strtol(hex, NULL, 16)` of the two bytes consumed by a
`\xHH` escape: `strtol` parses the longest hex prefix (possibly empty). -/
def hexEscVal (d1 d2 : Nat) : Nat :=
  if isXdigitB d1 then
    if isXdigitB d2 then (hexDigitVal d1 * 16 + hexDigitVal d2) % 256
    else hexDigitVal d1
  else 0

/-- Loop of `parse_string` (each iteration consumes ≥ 1 byte; `bi < 4095`). -/
def parseStrA : Nat → Core → List Nat → Core × List Nat
  | 0, k, acc => (k, acc.reverse)
  | f + 1, k, acc =>
    if k.pos < k.src.length && peekC k != 34 && acc.length < 4095 then
      let ch := peekC k
      let k1 := adv k
      if ch == 92 && k1.pos < k1.src.length then
        let e := peekC k1
        let k2 := adv k1
        if e == 110 then parseStrA f k2 (10 :: acc)
        else if e == 116 then parseStrA f k2 (9 :: acc)
        else if e == 114 then parseStrA f k2 (13 :: acc)
        else if e == 48 then parseStrA f k2 (0 :: acc)
        else if e == 120 && k2.pos + 2 ≤ k2.src.length then
          parseStrA f (adv (adv k2)) (hexEscVal (peekC k2) (peekC (adv k2)) :: acc)
        else parseStrA f k2 (e :: acc)
      else parseStrA f k1 (ch :: acc)
    else (k, acc.reverse)

/-- `parse_string`: consumes the quotes and returns the unescaped bytes. -/
def parse_string (k : Core) : Core × List Nat :=
  let k0 := if peekC k == 34 then adv k else k
  let p := parseStrA (k0.src.length - k0.pos + 1) k0 []
  (if peekC p.1 == 34 then adv p.1 else p.1, p.2)

/-- `strlen` of a parsed string buffer (stops at the first NUL byte, exactly
as the C `strlen` does on the buffer `parse_string` returns). -/
def strlenB (bs : List Nat) : Nat := (bs.takeWhile (fun b => b != 0)).length

def hexLoopA : Nat → Core → Int → Core × Int
  | 0, k, num => (k, num)
  | f + 1, k, num =>
    if k.pos < k.src.length && isXdigitB (peekC k) then
      hexLoopA f (adv k) (num * 16 + (hexDigitVal (peekC k) : Int))
    else (k, num)

def decLoopA : Nat → Core → Int → Core × Int
  | 0, k, num => (k, num)
  | f + 1, k, num =>
    if k.pos < k.src.length && isDigitB (peekC k) then
      decLoopA f (adv k) (num * 10 + ((peekC k : Int) - 48))
    else (k, num)

/-- Fractional-part loop of `parse_number`.  The C code keeps `frac` as a
`double` starting at `0.1` and multiplies it by `0.1` per digit, adding
`(int64_t)(digit * frac)` to `num`; the model keeps `frac` as the exact
unnormalised fraction `fn / fd` and adds the truncated `digit * fn / fd`.
Both the double and the exact value of `digit * frac` lie in `[0, 0.91]`
for every digit and every iteration, so the truncation yields the same
(zero) contribution in both semantics. -/
def fracLoopA : Nat → Core → Int → Nat → Nat → Core × Int
  | 0, k, num, _, _ => (k, num)
  | f + 1, k, num, fn, fd =>
    if k.pos < k.src.length && isDigitB (peekC k) then
      fracLoopA f (adv k) (num + (((peekC k - 48) * fn) / fd : Nat)) fn (fd * 10)
    else (k, num)

/-- `parse_number` (the C `int64_t` arithmetic is modelled as exact `Int`;
no claim exercises 64-bit overflow of a literal). -/
def parse_number (k : Core) : Core × Int :=
  let neg := peekC k == 45
  let k1 := if neg then adv k else k
  let p :=
    if peekC k1 == 48 && peekN k1 1 == 120 then
      hexLoopA ((adv (adv k1)).src.length - (adv (adv k1)).pos + 1) (adv (adv k1)) 0
    else decLoopA (k1.src.length - k1.pos + 1) k1 0
  let p2 :=
    if peekC p.1 == 46 then
      fracLoopA ((adv p.1).src.length - (adv p.1).pos + 1) (adv p.1) p.2 1 10
    else p
  (p2.1, if neg then -p2.2 else p2.2)

-- ── non-recursive statement helpers (all on `Core`) ───────────────────────

/-- `compile_out`: a zero-length string (after escapes, up to the first NUL,
as `strlen` measures it) emits nothing at all. -/
def compile_out (k : Core) : Core :=
  let p := parse_string (skip_whitespace k)
  let k := p.1
  let len := strlenB p.2
  if len == 0 then k
  else
    let cg := emit_i32 (emit_byte k.cg 0xe9) (len : Int)
    let dataPos := cg.code.length
    let cg := emit_bytes cg (p.2.takeWhile (fun b => b != 0))
    let cg := gen_mov_rdi_imm (gen_mov_rax_imm cg 1) 1
    let rel : Int := -((cg.code.length - dataPos + 7 : Nat) : Int)
    let cg := emit_i32 (emit_bytes cg [0x48, 0x8d, 0x35]) rel
    { k with cg := gen_syscall (gen_mov_rdx_imm cg (len : Int)) }

/-- `compile_emit` (byte for byte the same emission as `compile_out`). -/
def compile_emit (k : Core) : Core :=
  let p := parse_string (skip_whitespace k)
  let k := p.1
  let len := strlenB p.2
  if len == 0 then k
  else
    let cg := emit_i32 (emit_byte k.cg 0xe9) (len : Int)
    let dataPos := cg.code.length
    let cg := emit_bytes cg (p.2.takeWhile (fun b => b != 0))
    let cg := gen_mov_rdi_imm (gen_mov_rax_imm cg 1) 1
    let rel : Int := -((cg.code.length - dataPos + 7 : Nat) : Int)
    let cg := emit_i32 (emit_bytes cg [0x48, 0x8d, 0x35]) rel
    { k with cg := gen_syscall (gen_mov_rdx_imm cg (len : Int)) }

/-- Parameter loop of `compile_fn_def`.  A C iteration that parses an
identifier consumes it; an iteration seeing a non-identifier non-brace byte
consumes nothing (the C loops forever on such input; the budget stops the
model there, and no claim concerns such sources). -/
def fnParamsA : Nat → Core → List (List Nat) → Core × List (List Nat)
  | 0, k, ps => (k, ps)
  | f + 1, k, ps =>
    if k.pos < k.src.length && peekC k != 123 && ps.length < 16 then
      let (k, ps) :=
        if is_ident_start (peekC k) then
          let (k1, p) := parse_ident k
          (k1, ps ++ [p])
        else (k, ps)
      fnParamsA f (skip_whitespace k) ps
    else (k, ps)

/-- The string scan inside brace matching: `while (pos < len && peek != '"')
{ if (peek == '\\') advance; advance; }`. -/
def fnBodyStrA : Nat → Core → Core
  | 0, k => k
  | f + 1, k =>
    if k.pos < k.src.length && peekC k != 34 then
      fnBodyStrA f (adv (if peekC k == 92 then adv k else k))
    else k

/-- Brace-matching loop shared by `compile_fn_def` and `skip_block_decl`:
depth bookkeeping with string and `#`-comment awareness, one unconditional
`advance` per iteration. -/
def fnBodyA : Nat → Core → Nat → Core
  | 0, k, _ => k
  | f + 1, k, depth =>
    if k.pos < k.src.length && 0 < depth then
      let ch := peekC k
      let (k, depth) :=
        if ch == 123 then (k, depth + 1)
        else if ch == 125 then (k, depth - 1)
        else if ch == 34 then
          (fnBodyStrA ((adv k).src.length - (adv k).pos + 1) (adv k), depth)
        else if ch == 35 then (skipLineA (k.src.length - k.pos + 1) k, depth)
        else (k, depth)
      fnBodyA f (adv k) depth
    else k

/-- `compile_fn_def`: records the declaration and captures the body range;
emits nothing. -/
def compile_fn_def (k : Core) : Core :=
  let pn := parse_ident (skip_whitespace k)
  let name := pn.2
  if MAX_FUNCS ≤ pn.1.cg.func_count then pn.1
  else
    let idx := pn.1.cg.func_count
    let k1 := skip_whitespace pn.1
    let pp := fnParamsA (k1.src.length - k1.pos + 1) k1 []
    let ps := pp.2
    let q :=
      if peekC pp.1 == 123 then
        let ka := adv pp.1
        let kb := fnBodyA (ka.src.length - ka.pos + 1) ka 1
        (kb, ka.pos, kb.pos - 1)
      else (pp.1, 0, 0)
    { q.1 with cg :=
        { q.1.cg with
          funcs := setFunc q.1.cg.funcs idx ⟨name, 0, ps.length, ps, q.2.1, q.2.2⟩,
          func_count := idx + 1 } }

/-- `while (pos < len && peek != b) advance` -/
def skipToA : Nat → Core → Nat → Core
  | 0, k, _ => k
  | f + 1, k, b =>
    if k.pos < k.src.length && peekC k != b then skipToA f (adv k) b else k

/-- `skip_block_decl` -/
def skip_block_decl (k : Core) : Core :=
  let k := skipToA (k.src.length - k.pos + 1) k 123
  if peekC k == 123 then
    let ka := adv k
    fnBodyA (ka.src.length - ka.pos + 1) ka 1
  else k

/-- `compile_break` -/
def compile_break (k : Core) : Core :=
  match k.loops with
  | [] => k
  | (_, e) :: _ => { k with cg := gen_jmp k.cg e }

-- ── shared emission fragments ─────────────────────────────────────────────

/-- `skip_whitespace; if (peek == '(') advance` -/
def openParen (k : Core) : Core :=
  let k := skip_whitespace k
  if peekC k == 40 then adv k else k

/-- `skip_whitespace; if (peek == ')') advance` -/
def closeParen (k : Core) : Core :=
  let k := skip_whitespace k
  if peekC k == 41 then adv k else k

/-- `gen_push_rax; skip_whitespace; if (peek == ',') advance` — the glue
between marshalled arguments. -/
def sysSep (k : Core) : Core :=
  let k := { k with cg := gen_push_rax k.cg }
  let k := skip_whitespace k
  if peekC k == 44 then adv k else k

/-- Tail of the 3-argument syscall marshalling. -/
def sysTail3 (num : Nat) (cg : CodeGen) : CodeGen :=
  gen_syscall (gen_mov_rax_imm
    (gen_mov_rdi_rax (gen_pop_rax (gen_mov_rsi_rax (gen_pop_rax
      (gen_mov_rdx_rax cg))))) num)

/-- Tail of the `mmap` marshalling. -/
def mmapTail (cg : CodeGen) : CodeGen :=
  gen_syscall (gen_mov_rax_imm
    (gen_mov_rdi_rax (gen_pop_rax (gen_mov_rsi_rax (gen_pop_rax
      (gen_mov_rdx_rax (gen_pop_rax
        (emit_bytes (emit_bytes (emit_bytes cg [0x49, 0x89, 0xc1])
          [0x41, 0x58]) [0x41, 0x5a]))))))) 9)

/-- The fixed `getchar` emission (identical at expression and statement
level). -/
def getcharEmit (cg : CodeGen) : CodeGen :=
  gen_add_rsp
    (emit_bytes
      (gen_syscall (gen_mov_rdx_imm
        (emit_bytes (gen_mov_rdi_imm (gen_mov_rax_imm (gen_sub_rsp cg 16) 0) 0)
          [0x48, 0x8d, 0x34, 0x24]) 1))
      [0x48, 0x0f, 0xb6, 0x04, 0x24]) 16

/-- The shared `putchar`/`byte` emission tail (after the argument). -/
def putcharTail (cg : CodeGen) : CodeGen :=
  gen_add_rsp
    (gen_syscall (gen_mov_rdx_imm
      (emit_bytes
        (gen_mov_rdi_imm (gen_mov_rax_imm
          (emit_bytes (gen_sub_rsp cg 16) [0x88, 0x04, 0x24]) 1) 1)
        [0x48, 0x8d, 0x34, 0x24]) 1)) 16

/-- Tail of a user-function call site (expression and statement level):
consume `)`, `call` with a fixup on the name, and reclaim `8 × argc` iff
`argc > 0`. -/
def userCallTail (name : List Nat) (argc : Nat) (k : Core) : Core :=
  let k := if peekC k == 41 then adv k else k
  let k := { k with cg := gen_call k.cg name }
  if 0 < argc then { k with cg := gen_add_rsp k.cg ((argc * 8 : Nat) : Int) }
  else k

/-- Numeric-literal primary: `movabs rax, imm64`. -/
def exprNum (k : Core) : Core :=
  let (k, v) := parse_number k
  { k with cg := gen_mov_rax_imm k.cg v }

/-- String-literal primary: short `jmp` over the inline bytes (displacement
byte is `len + 1` truncated to `uint8_t` by `emit_byte`'s parameter type),
the `strlen`-measured bytes plus the NUL, then `lea rax, [rip+disp32]` with
displacement `-(len + 8)`. -/
def exprStr (k : Core) : Core :=
  let (k, s) := parse_string k
  let len := strlenB s
  let cg := emit_byte (emit_byte k.cg 0xeb) (len + 1)
  let strPos := cg.code.length
  let cg := emit_bytes cg ((s.takeWhile (fun b => b != 0)) ++ [0])
  let rel : Int := -((cg.code.length - strPos + 7 : Nat) : Int)
  { k with cg := emit_i32 (emit_bytes cg [0x48, 0x8d, 0x05]) rel }

/-- Identifier primary that is not a call: load the variable, or load the
immediate 0 when the name is not in the table. -/
def exprVar (name : List Nat) (k : Core) : Core :=
  match find_var k.cg.vars name with
  | some v => { k with cg := gen_load_var v k.cg }
  | none => { k with cg := gen_mov_rax_imm k.cg 0 }

/-- `getchar()` at expression level: optional `)`, then the emission. -/
def getcharExpr (k : Core) : Core :=
  let k := if peekC k == 41 then adv k else k
  { k with cg := getcharEmit k.cg }

/-- Tail of expression-level `peek(addr)`. -/
def peekTail (k : Core) : Core :=
  let k := closeParen k
  { k with cg := emit_bytes k.cg [0x48, 0x0f, 0xb6, 0x00] }

/-- Tail of statement-level `peek(addr)` (emission before the `)`). -/
def peekStmtTail (k : Core) : Core :=
  closeParen { k with cg := emit_bytes k.cg [0x48, 0x0f, 0xb6, 0x00] }

/-- Glue between the two `poke` arguments. -/
def pokeMid (k : Core) : Core :=
  let k := { k with cg := gen_push_rax k.cg }
  let k := skip_whitespace k
  let k := if peekC k == 44 then adv k else k
  skip_whitespace k

/-- Tail of expression-level `poke`: `)`, then `pop rbx; mov [rbx], al`. -/
def pokeExprTail (k : Core) : Core :=
  let k := closeParen k
  { k with cg := emit_bytes (gen_pop_rbx k.cg) [0x88, 0x03] }

/-- Tail of statement-level `poke`: `pop rbx; mov [rbx], al`, then `)`. -/
def pokeStmtTail (k : Core) : Core :=
  closeParen { k with cg := emit_bytes (gen_pop_rbx k.cg) [0x88, 0x03] }

-- ── telemetry abstraction ─────────────────────────────────────────────────

/-- The operations the compilation path applies to the inert telemetry state
(`UnifiedField`/`TileManager`/`FateScheduler` plus the `fate_mode` flag).
They compute with C `double`s, so they are kept abstract; every statement
about them quantifies over all possible operations, which includes the
concrete ones.  `loop_guard` is `fate_mode && fate.on`; `tick` is
`fate_tick`; `reinit` is the `unified_init`/`tile_init`/`fate_init`/
`tile_add_pool` sequence at the top of `compile()`. -/
structure TelOps (T : Type) where
  reinit : T → T
  fate_on : T → T
  fate_off : T → T
  limit_set : Int → T → T
  uni_i : Int → T → T
  uni_e : Int → T → T
  uni_r : Int → T → T
  loop_guard : T → Bool
  tick : T → T

/-- The full compiler state: the telemetry-free `Core` plus the telemetry. -/
structure Comp (T : Type) where
  core : Core
  tel : T
  deriving DecidableEq

/-- The trivial telemetry instance. -/
def unitOps : TelOps Unit :=
  ⟨id, id, id, fun _ => id, fun _ => id, fun _ => id, fun _ => id,
   fun _ => false, id⟩

variable {T : Type}

def onCore (f : Core → Core) (c : Comp T) : Comp T := ⟨f c.core, c.tel⟩

/-- Loop of `parse_unified_block`: parse `key : value` pairs, updating the
telemetry.  (On degenerate input the C loop consumes nothing and hangs; the
budget stops the model there.) -/
def parseUniA (o : TelOps T) : Nat → Comp T → Comp T
  | 0, c => c
  | f + 1, c =>
    if c.core.pos < c.core.src.length && peekC c.core != 125 then
      let c := onCore skip_whitespace c
      if peekC c.core == 125 then c
      else
        let k := c.core
        let (k, key) := parse_ident k
        let k := skip_whitespace k
        let k := if peekC k == 58 then adv k else k
        let k := skip_whitespace k
        let (k, v) := parse_number k
        let t := c.tel
        let t :=
          if key == strB "i" || key == strB "information_density" then
            o.uni_i v t
          else if key == strB "e" || key == strB "entropy_gradient" then
            o.uni_e v t
          else if key == strB "r" || key == strB "relation_strength" then
            o.uni_r v t
          else t
        let k := skip_whitespace k
        let k := if peekC k == 44 then adv k else k
        parseUniA o f ⟨k, t⟩
    else c

/-- `parse_unified_block` -/
def parse_unified_block (o : TelOps T) (c : Comp T) : Comp T :=
  let c := onCore skip_whitespace c
  if peekC c.core != 123 then onCore skip_line c
  else
    let c := onCore adv c
    let c := parseUniA o (c.core.src.length - c.core.pos + 1) c
    if peekC c.core == 125 then onCore adv c else c

/-- The 3-argument syscall marshalling (`open`/`read`/`write`, both at
expression and statement level), parameterised by the recursive expression
compiler `E` and the syscall number. -/
def sys3 (E : Comp T → Comp T) (num : Nat) (c : Comp T) : Comp T :=
  let c := onCore sysSep (E c)
  let c := onCore sysSep (E c)
  let c := E c
  onCore (fun k => { k with cg := sysTail3 num k.cg }) c

/-- The 1-argument syscall marshalling (`close`). -/
def sys1 (E : Comp T → Comp T) (num : Nat) (c : Comp T) : Comp T :=
  onCore (fun k =>
    { k with cg := gen_syscall (gen_mov_rax_imm (gen_mov_rdi_rax k.cg) num) })
    (E c)

/-- The 6-argument `mmap` marshalling. -/
def sys6 (E : Comp T → Comp T) (c : Comp T) : Comp T :=
  let c := onCore sysSep (E c)
  let c := onCore sysSep (E c)
  let c := onCore sysSep (E c)
  let c := onCore sysSep (E c)
  let c := onCore sysSep (E c)
  let c := E c
  onCore (fun k => { k with cg := mmapTail k.cg }) c

/-- The `(advance; gen_push_rax)` entry of a one-byte binary operator. -/
def opEnter1 (k : Core) : Core :=
  let k := adv k
  { k with cg := gen_push_rax k.cg }

/-- The entry of a two-byte binary operator. -/
def opEnter2 (k : Core) : Core :=
  let k := adv (adv k)
  { k with cg := gen_push_rax k.cg }

/-- `gen_pop_rbx` followed by the operator's byte sequence. -/
def opAfter (bs : List Nat) (k : Core) : Core :=
  { k with cg := emit_bytes (gen_pop_rbx k.cg) bs }

/-- The `/` operator's tail: `mov rbx, rax; pop rax; cqo; idiv rbx`. -/
def divAfter (k : Core) : Core :=
  { k with cg := gen_div_rax_rbx (gen_pop_rax
      (emit_bytes k.cg [0x48, 0x89, 0xc3])) }

-- ── the mutually recursive compiler ───────────────────────────────────────

mutual

/-- `compile_expr` (the C `int64_t` return value is discarded at every call
site and is not modelled). -/
def compile_expr (o : TelOps T) : Nat → Comp T → Comp T
  | 0, c => c
  | n + 1, c => exprOpsLoop o n (onCore skip_whitespace (exprPrimary o n c))

/-- The primary-expression part of `compile_expr`. -/
def exprPrimary (o : TelOps T) : Nat → Comp T → Comp T
  | 0, c => c
  | n + 1, c =>
    let c := onCore skip_whitespace c
    let k := c.core
    if isDigitB (peekC k) || (peekC k == 45 && isDigitB (peekN k 1)) then
      onCore exprNum c
    else if peekC k == 34 then
      onCore exprStr c
    else if is_ident_start (peekC k) then
      let (k1, name) := parse_ident k
      let k1 := skip_whitespace k1
      if peekC k1 == 40 then
        let k2 := skip_whitespace (adv k1)
        let c2 : Comp T := ⟨k2, c.tel⟩
        if name == strB "getchar" then
          onCore getcharExpr c2
        else if name == strB "peek" then
          onCore peekTail (compile_expr o n c2)
        else if name == strB "poke" then
          onCore pokeExprTail
            (compile_expr o n (onCore pokeMid (compile_expr o n c2)))
        else if strB "syscall" == name.take 7 then
          let (c3, sname) :=
            if name.getD 7 0 == 46 then (c2, name.drop 8)
            else if peekC k2 == 46 then
              let (k4, nm2) := parse_ident (adv k2)
              ((⟨k4, c.tel⟩ : Comp T), nm2)
            else (c2, name.drop 7)
          let c3 := onCore openParen c3
          let c3 :=
            if sname == strB "open" then sys3 (compile_expr o n) 2 c3
            else if sname == strB "read" then sys3 (compile_expr o n) 0 c3
            else if sname == strB "write" then sys3 (compile_expr o n) 1 c3
            else if sname == strB "close" then sys1 (compile_expr o n) 3 c3
            else if sname == strB "mmap" then sys6 (compile_expr o n) c3
            else c3
          onCore closeParen c3
        else
          let (c4, argc) := argsLoopE o n c2 0
          onCore (userCallTail name argc) c4
      else
        onCore (exprVar name) (⟨k1, c.tel⟩ : Comp T)
    else if peekC k == 40 then
      onCore closeParen (compile_expr o n (onCore adv c))
    else
      onCore (fun k => { k with cg := gen_mov_rax_imm k.cg 0 }) c

/-- The binary-operator loop of `compile_expr`. -/
def exprOpsLoop (o : TelOps T) : Nat → Comp T → Comp T
  | 0, c => c
  | n + 1, c =>
    let k := c.core
    if k.pos < k.src.length then
      let op := peekC k
      let op2 := peekN k 1
      if op == 43 && op2 != 61 then
        exprOpsLoop o n (onCore (opAfter [0x48, 0x01, 0xd8])
          (compile_expr o n (onCore opEnter1 c)))
      else if op == 45 && !isDigitB op2 && op2 != 61 then
        exprOpsLoop o n (onCore
          (opAfter [0x48, 0x89, 0xc1, 0x48, 0x89, 0xd8, 0x48, 0x29, 0xc8])
          (compile_expr o n (onCore opEnter1 c)))
      else if op == 42 && op2 != 61 then
        exprOpsLoop o n (onCore (opAfter [0x48, 0x0f, 0xaf, 0xc3])
          (compile_expr o n (onCore opEnter1 c)))
      else if op == 47 && op2 != 61 then
        exprOpsLoop o n (onCore divAfter
          (compile_expr o n (onCore opEnter1 c)))
      else if op == 62 && op2 == 61 then
        exprOpsLoop o n (onCore
          (opAfter [0x48, 0x39, 0xc3, 0x0f, 0x9d, 0xc0, 0x48, 0x0f, 0xb6, 0xc0])
          (compile_expr o n (onCore opEnter2 c)))
      else if op == 60 && op2 == 61 then
        exprOpsLoop o n (onCore
          (opAfter [0x48, 0x39, 0xc3, 0x0f, 0x9e, 0xc0, 0x48, 0x0f, 0xb6, 0xc0])
          (compile_expr o n (onCore opEnter2 c)))
      else if op == 61 && op2 == 61 then
        exprOpsLoop o n (onCore
          (opAfter [0x48, 0x39, 0xc3, 0x0f, 0x94, 0xc0, 0x48, 0x0f, 0xb6, 0xc0])
          (compile_expr o n (onCore opEnter2 c)))
      else if op == 33 && op2 == 61 then
        exprOpsLoop o n (onCore
          (opAfter [0x48, 0x39, 0xc3, 0x0f, 0x95, 0xc0, 0x48, 0x0f, 0xb6, 0xc0])
          (compile_expr o n (onCore opEnter2 c)))
      else if op == 62 && op2 != 62 then
        exprOpsLoop o n (onCore
          (opAfter [0x48, 0x39, 0xc3, 0x0f, 0x9f, 0xc0, 0x48, 0x0f, 0xb6, 0xc0])
          (compile_expr o n (onCore opEnter1 c)))
      else if op == 60 && op2 != 60 then
        exprOpsLoop o n (onCore
          (opAfter [0x48, 0x39, 0xc3, 0x0f, 0x9c, 0xc0, 0x48, 0x0f, 0xb6, 0xc0])
          (compile_expr o n (onCore opEnter1 c)))
      else c
    else c

/-- The user-call argument loop at expression level (capped at 16). -/
def argsLoopE (o : TelOps T) : Nat → Comp T → Nat → Comp T × Nat
  | 0, c, a => (c, a)
  | n + 1, c, a =>
    if peekC c.core != 41 && c.core.pos < c.core.src.length && a < 16 then
      argsLoopE o n
        (onCore skip_whitespace (onCore sysSep (compile_expr o n c))) (a + 1)
    else (c, a)

/-- The call-statement argument loop (no cap on `argc`). -/
def argsLoopS (o : TelOps T) : Nat → Comp T → Nat → Comp T × Nat
  | 0, c, a => (c, a)
  | n + 1, c, a =>
    if peekC c.core != 41 && c.core.pos < c.core.src.length then
      argsLoopS o n
        (onCore skip_whitespace (onCore sysSep (compile_expr o n c))) (a + 1)
    else (c, a)

/-- `compile_statement` -/
def compile_statement (o : TelOps T) : Nat → Comp T → Comp T
  | 0, c => c
  | n + 1, c =>
    let c := onCore skip_whitespace c
    let k := c.core
    if k.src.length ≤ k.pos then c
    else if peekC k == 35 then onCore skip_line c
    else if src_match k (strB "out ") then
      onCore (fun k => compile_out (advN k 4)) c
    else if src_match k (strB "emit ") then
      onCore (fun k => compile_emit (advN k 5)) c
    else if src_match k (strB "fn ") then
      onCore (fun k => compile_fn_def (advN k 3)) c
    else if src_match k (strB "when ") then
      compile_when o n (onCore (fun k => advN k 5) c)
    else if src_match k (strB "loop") then
      compile_loop o n (onCore (fun k => skip_whitespace (advN k 4)) c)
    else if src_match k (strB "break") then
      onCore (fun k => compile_break (advN k 5)) c
    else if src_match k (strB "return") then
      compile_return o n (onCore (fun k => advN k 6) c)
    else if src_match k (strB "-> ") then
      compile_return o n (onCore (fun k => advN k 3) c)
    else if src_match k (strB "keep") then
      onCore (fun k =>
        let k := advN k 4
        { k with cg := gen_event_loop k.cg }) c
    else if src_match k (strB "fate on") then
      { onCore (fun k => advN k 7) c with tel := o.fate_on c.tel }
    else if src_match k (strB "fate off") then
      { onCore (fun k => advN k 8) c with tel := o.fate_off c.tel }
    else if src_match k (strB "limit ") then
      let (k1, v) := parse_number (advN k 6)
      (⟨k1, o.limit_set (i32wrap v) c.tel⟩ : Comp T)
    else if src_match k (strB "syscall.exit(") then
      let k1 := skip_whitespace (advN k 13)
      let ch := peekC k1
      if (48 ≤ ch && ch ≤ 57) || ch == 45 then
        let (k2, v) := parse_number k1
        let k2 := skipToA (k2.src.length - k2.pos + 1) k2 41
        let k2 := if peekC k2 == 41 then adv k2 else k2
        (⟨{ k2 with cg := gen_exit k2.cg (i32wrap v) }, c.tel⟩ : Comp T)
      else
        onCore (fun k =>
          let k := closeParen k
          { k with cg := gen_exit_rax k.cg }) (compile_expr o n (⟨k1, c.tel⟩ : Comp T))
    else if src_match k (strB "syscall.write(") then
      onCore closeParen (sys3 (compile_expr o n) 1 (onCore (fun k => advN k 14) c))
    else if src_match k (strB "syscall.read(") then
      onCore closeParen (sys3 (compile_expr o n) 0 (onCore (fun k => advN k 13) c))
    else if src_match k (strB "syscall.open(") then
      onCore closeParen (sys3 (compile_expr o n) 2 (onCore (fun k => advN k 13) c))
    else if src_match k (strB "syscall.close(") then
      onCore closeParen (sys1 (compile_expr o n) 3 (onCore (fun k => advN k 14) c))
    else if src_match k (strB "syscall.mmap(") then
      onCore closeParen (sys6 (compile_expr o n) (onCore (fun k => advN k 13) c))
    else if src_match k (strB "poke(") then
      onCore pokeStmtTail
        (compile_expr o n (onCore pokeMid (compile_expr o n (onCore (fun k => advN k 5) c))))
    else if src_match k (strB "peek(") then
      onCore peekStmtTail (compile_expr o n (onCore (fun k => advN k 5) c))
    else if src_match k (strB "getchar()") then
      onCore (fun k =>
        let k := advN k 9
        { k with cg := getcharEmit k.cg }) c
    else if src_match k (strB "putchar(") then
      onCore (fun k =>
        let k := closeParen k
        { k with cg := putcharTail k.cg })
        (compile_expr o n (onCore (fun k => advN k 8) c))
    else if src_match k (strB "byte(") then
      onCore (fun k =>
        let k := closeParen k
        { k with cg := putcharTail k.cg })
        (compile_expr o n (onCore (fun k => advN k 5) c))
    else if src_match k (strB "unified ") then
      parse_unified_block o (onCore (fun k => advN k 8) c)
    else if src_match k (strB "unified\x7b") then
      parse_unified_block o (onCore (fun k => advN k 7) c)
    else if src_match k (strB "platform.probe") then
      onCore (fun k => advN k 14) c
    else if src_match k (strB "bridge.read") then
      onCore (fun k => advN k 11) c
    else if src_match k (strB "compat.probe") then
      onCore (fun k => advN k 12) c
    else if src_match k (strB "pool ") || src_match k (strB "fate \x7b") ||
        src_match k (strB "task \x7b") || src_match k (strB "gpu \x7b") ||
        src_match k (strB "perf \x7b") || src_match k (strB "reg \x7b") ||
        src_match k (strB "sys \x7b") || src_match k (strB "compiler \x7b") ||
        src_match k (strB "collapse \x7b") || src_match k (strB "lib \x7b") ||
        src_match k (strB "env \x7b") || src_match k (strB "rule ") ||
        src_match k (strB "intent ") || src_match k (strB "platform \x7b") ||
        src_match k (strB "tile \x7b") || src_match k (strB "codegen \x7b") ||
        src_match k (strB "graphics \x7b") || src_match k (strB "gui \x7b") ||
        src_match k (strB "style \x7b") || src_match k (strB "layout \x7b") ||
        src_match k (strB "event \x7b") || src_match k (strB "db \x7b") ||
        src_match k (strB "core \x7b") || src_match k (strB "kernel \x7b") ||
        src_match k (strB "linux \x7b") || src_match k (strB "macos \x7b") ||
        src_match k (strB "windows \x7b") || src_match k (strB "driver \x7b") ||
        src_match k (strB "observe \x7b") || src_match k (strB "field \x7b") ||
        src_match k (strB "use ") then
      onCore skip_block_decl c
    else if src_match k (strB "otherwise") then
      let c := onCore (fun k => skip_whitespace (advN k 9)) c
      if peekC c.core == 123 then compile_block o n c else c
    else if is_ident_start (peekC k) then
      let (k1, name) := parse_ident k
      let k1 := skip_whitespace k1
      if peekC k1 == 61 && peekN k1 1 != 61 then
        compile_assign o n name (⟨adv k1, c.tel⟩ : Comp T)
      else if peekC k1 == 40 then
        let k2 := skip_whitespace (adv k1)
        let (c4, argc) := argsLoopS o n (⟨k2, c.tel⟩ : Comp T) 0
        onCore (userCallTail name argc) c4
      else
        onCore skip_line (⟨k1, c.tel⟩ : Comp T)
    else onCore skip_line c

/-- `compile_block` -/
def compile_block (o : TelOps T) : Nat → Comp T → Comp T
  | 0, c => c
  | n + 1, c =>
    let c := onCore (fun k =>
      let k := skip_whitespace k
      if peekC k == 123 then adv k else k) c
    blockLoop o n c

/-- The statement loop of `compile_block`. -/
def blockLoop (o : TelOps T) : Nat → Comp T → Comp T
  | 0, c => c
  | n + 1, c =>
    if c.core.pos < c.core.src.length then
      let c := onCore skip_whitespace c
      if peekC c.core == 125 then onCore adv c
      else blockLoop o n (compile_statement o n c)
    else c

/-- `compile_when` -/
def compile_when (o : TelOps T) : Nat → Comp T → Comp T
  | 0, c => c
  | n + 1, c =>
    let id := c.core.cg.when_id
    let lbl := strB "_when_end_" ++ natDigits id
    let c := onCore (fun k => { k with cg := { k.cg with when_id := id + 1 } }) c
    let c := compile_expr o n (onCore skip_whitespace c)
    let c := onCore (fun k => { k with cg := gen_je (gen_test_rax_rax k.cg) lbl }) c
    let c := onCore skip_whitespace c
    let c := if peekC c.core == 123 then compile_block o n c else c
    onCore (fun k => { k with cg := add_label k.cg lbl }) c

/-- `compile_loop` (the fate tick touches only the telemetry). -/
def compile_loop (o : TelOps T) : Nat → Comp T → Comp T
  | 0, c => c
  | n + 1, c =>
    let id := c.core.cg.loop_id
    let sl := strB "_loop_start_" ++ natDigits id
    let el := strB "_loop_end_" ++ natDigits id
    let c := onCore (fun k => { k with cg := { k.cg with loop_id := id + 1 } }) c
    let c := onCore (fun k =>
      { k with loops := if k.loops.length < 16 then (sl, el) :: k.loops else k.loops }) c
    let c := onCore (fun k => { k with cg := add_label k.cg sl }) c
    let c := onCore skip_whitespace c
    let c := if peekC c.core == 123 then compile_block o n c else c
    let c := if o.loop_guard c.tel then { c with tel := o.tick c.tel } else c
    let c := onCore (fun k => { k with cg := add_label (gen_jmp k.cg sl) el }) c
    onCore (fun k => { k with loops := k.loops.tail }) c

/-- `compile_return` (inside a loop the token breaks; at function level it
emits the epilogue). -/
def compile_return (o : TelOps T) : Nat → Comp T → Comp T
  | 0, c => c
  | n + 1, c =>
    let c := onCore skip_whitespace c
    let k := c.core
    let c :=
      if k.pos < k.src.length && peekC k != 10 && peekC k != 125 then
        compile_expr o n c
      else c
    onCore (fun k =>
      match k.loops with
      | (_, e) :: _ => { k with cg := gen_jmp k.cg e }
      | [] => { k with cg := gen_epilogue k.cg }) c

/-- `compile_assign` (the variable is created before the expression is
compiled; a full table makes the whole statement a no-op, as in C). -/
def compile_assign (o : TelOps T) : Nat → List Nat → Comp T → Comp T
  | 0, _, c => c
  | n + 1, name, c =>
    let c := onCore skip_whitespace c
    match find_var c.core.cg.vars name with
    | some v =>
      onCore (fun k => { k with cg := gen_store_var v k.cg }) (compile_expr o n c)
    | none =>
      match add_var c.core.cg name 0 with
      | some (cg', v) =>
        onCore (fun k => { k with cg := gen_store_var v k.cg })
          (compile_expr o n (⟨{ c.core with cg := cg' }, c.tel⟩ : Comp T))
      | none => c

end

-- ── the three-pass driver ─────────────────────────────────────────────────

/-- Parameter variables bound by `compile_function_body`: parameter `i` gets
frame offset `16 + (param_count - 1 - i) * 8`. -/
def paramVarsA (fn : Func) : Nat → Nat → List Var
  | 0, _ => []
  | f + 1, i =>
    if i < fn.param_count then
      (⟨fn.params.getD i [], 0, true, false, 0,
        ((16 + (fn.param_count - 1 - i) * 8 : Nat) : Int)⟩ : Var) ::
        paramVarsA fn f (i + 1)
    else []

def paramVars (fn : Func) : List Var := paramVarsA fn fn.param_count 0

/-- The statement loop of `compile_function_body` (each statement consumes at
least one byte while `pos < len`, so `src.length + 1` iterations suffice). -/
def bodyLoopA (o : TelOps T) (F : Nat) : Nat → Comp T → Nat → Comp T
  | 0, c, _ => c
  | f + 1, c, bend =>
    if c.core.pos < bend then bodyLoopA o F f (compile_statement o F c) bend
    else c

/-- `compile_function_body` (`current_func` is set and reset but never read,
and is not modelled). -/
def compile_function_body (o : TelOps T) (F : Nat) (c : Comp T) (fn : Func) :
    Comp T :=
  let savedVC := c.core.cg.vars.length
  let savedSS := c.core.cg.stack_size
  let savedIF := c.core.cg.in_function
  let c := onCore (fun k =>
    { k with cg :=
        { k.cg with
          in_function := true, vars := k.cg.vars ++ paramVars fn } }) c
  let savedPos := c.core.pos
  let c := onCore (fun k => { k with pos := fn.body_pos }) c
  let c := bodyLoopA o F (c.core.src.length + 1) c fn.body_end
  let c := onCore (fun k => { k with pos := savedPos }) c
  onCore (fun k =>
    { k with cg :=
        { k.cg with
          vars := k.cg.vars.take savedVC,
          stack_size := savedSS, in_function := savedIF } }) c

/-- Pass 1: scan for `fn` declarations, emitting nothing. -/
def pass1A : Nat → Core → Core
  | 0, k => k
  | f + 1, k =>
    if k.pos < k.src.length then
      let k := skip_whitespace k
      if src_match k (strB "fn ") then pass1A f (compile_fn_def (advN k 3))
      else pass1A f (skip_line k)
    else k

/-- Pass 2: compile every statement. -/
def pass2A (o : TelOps T) (F : Nat) : Nat → Comp T → Comp T
  | 0, c => c
  | f + 1, c =>
    if c.core.pos < c.core.src.length then pass2A o F f (compile_statement o F c)
    else c

/-- Pass 3: emit the captured function bodies (`func_count` can grow while
the loop runs, but never beyond `MAX_FUNCS`). -/
def pass3A (o : TelOps T) (F : Nat) : Nat → Nat → Comp T → Comp T
  | 0, _, c => c
  | f + 1, i, c =>
    if i < c.core.cg.func_count then
      let fn := c.core.cg.funcs.getD i fnDefault
      if 0 < fn.body_pos && fn.body_pos < fn.body_end then
        let c := onCore (fun k =>
          { k with cg :=
              { k.cg with
                funcs :=
                  setFunc k.cg.funcs i
                    { fn with code_offset := k.cg.code.length } } }) c
        let c := onCore (fun k =>
          { k with cg := gen_sub_rsp (gen_prologue (add_label k.cg fn.name)) 256 }) c
        let c := compile_function_body o F c fn
        let c := onCore (fun k =>
          { k with cg := emit_byte (gen_pop_rbp (gen_add_rsp k.cg 256)) 0xc3 }) c
        pass3A o F f (i + 1) c
      else pass3A o F f (i + 1) c
    else c

/-- `compile()` started on a fresh compiler state for the given source bytes
(the `compiler_init`/`platform_probe`/`compat_probe` effects touch only the
telemetry and the report, and are folded into the initial telemetry). -/
def compile_program (o : TelOps T) (t0 : T) (src : List Nat) : Comp T :=
  let c : Comp T := ⟨⟨src, 0, [], cg0⟩, t0⟩
  let F := src.length + 64
  let c := onCore (fun k => { k with cg := gen_sub_rsp (gen_prologue k.cg) 512 }) c
  let c := { c with tel := o.reinit c.tel }
  let savedPos := c.core.pos
  let c := onCore (pass1A (src.length + 2)) c
  let c := onCore (fun k => { k with pos := savedPos }) c
  let fc := c.core.cg.func_count
  let c := onCore (fun k => { k with cg := { k.cg with func_count := 0 } }) c
  let c := pass2A o F (src.length + 2) c
  let c := onCore (fun k => { k with cg := { k.cg with func_count := fc } }) c
  let c := onCore (fun k => { k with cg := gen_exit k.cg 0 }) c
  let c := pass3A o F (MAX_FUNCS + 1) 0 c
  onCore (fun k => { k with cg := resolve_fixups k.cg }) c

-- ── the `main` entry point, with its effects as oracle parameters ─────────

/-- Observable outcome of `main`: the process exit code, the stderr lines,
and the bytes written to the output file (`none` when nothing was written). -/
structure MainRes where
  exitCode : Nat
  errs : List (List Nat)
  written : Option (List Nat)
  deriving DecidableEq

/-- `main`, with the success of each effect as a parameter: fewer than two
arguments prints usage and exits 1; an unopenable input prints `Cannot open:`
to stderr and exits 1; a failed allocation prints `Out of memory` and exits 1;
after compilation `write_elf`/`write_raw` silently return when the output
cannot be opened (`if (!f) return;`), the report is printed to stdout, and
`main` returns 0. -/
def runMain (src : List Nat)
    (argcGe2 inputOpens allocOk outputOpens rawMode : Bool) : MainRes :=
  if !argcGe2 then ⟨1, [], none⟩
  else if !inputOpens then ⟨1, [strB "Cannot open: <input>"], none⟩
  else if !allocOk then ⟨1, [strB "Out of memory"], none⟩
  else
    let cg := (compile_program unitOps () src).core.cg
    if !outputOpens then ⟨0, [], none⟩
    else ⟨0, [], some (if rawMode then cg.code else elf_bytes cg)⟩

-- ── specification-side definitions used by the theorems ──────────────────

/-- Everything except the position cursor is preserved. -/
def SameButPos (k k' : Core) : Prop :=
  k'.src = k.src ∧ k'.loops = k.loops ∧ k'.cg = k.cg

/-- Value of a decimal digit string (the accumulator of the decimal loop). -/
def decVal (ds : List Nat) : Int :=
  ds.foldl (fun a (d : Nat) => a * 10 + ((d : Int) - 48)) 0

/-- Value of a hex digit string (the accumulator of the hex loop). -/
def hexVal (ds : List Nat) : Int :=
  ds.foldl (fun a (d : Nat) => a * 16 + (hexDigitVal d : Int)) 0

/-- The code buffer only grows by appending: every emitter produces an
extension of the buffer it is given. -/
def CgExt (cg cg' : CodeGen) : Prop := ∃ d, cg'.code = cg.code ++ d

-- ═══════════════════════════════════════════════════════════════
-- Supporting lemmas
-- ═══════════════════════════════════════════════════════════════

theorem emit_byte_app (cg : CodeGen) (b : Nat) (h : cg.code.length < MAX_CODE) :
    emit_byte cg b = { cg with code := cg.code ++ [b % 256] } := by
  simp [emit_byte, h]

theorem emit_byte_len_le (cg : CodeGen) (b : Nat) (h : cg.code.length ≤ MAX_CODE) :
    (emit_byte cg b).code.length ≤ MAX_CODE := by
  unfold emit_byte
  split
  · simpa using by omega
  · exact h

theorem emit_bytes_nil (cg : CodeGen) : emit_bytes cg [] = cg := rfl

theorem emit_bytes_cons (cg : CodeGen) (b : Nat) (bs : List Nat) :
    emit_bytes cg (b :: bs) = emit_bytes (emit_byte cg b) bs := rfl

theorem emit_bytes_app (cg : CodeGen) (bs : List Nat)
    (h : cg.code.length + bs.length ≤ MAX_CODE) :
    emit_bytes cg bs = { cg with code := cg.code ++ bs.map (fun b => b % 256) } := by
  induction bs generalizing cg with
  | nil => simp [emit_bytes]
  | cons b bs ih =>
    simp only [List.length_cons] at h
    have h1 : cg.code.length < MAX_CODE := by omega
    have h2 : (cg.code ++ [b % 256]).length + bs.length ≤ MAX_CODE := by
      simp only [List.length_append, List.length_cons, List.length_nil]
      omega
    rw [emit_bytes_cons, emit_byte_app cg b h1, ih _ h2]
    simp

theorem le32_length (n : Nat) : (le32 n).length = 4 := rfl

theorem le64_length (n : Nat) : (le64 n).length = 8 := rfl

theorem emit_u32_app (cg : CodeGen) (v : Nat)
    (h : cg.code.length + 4 ≤ MAX_CODE) :
    emit_u32 cg v = { cg with code := cg.code ++ le32 v } := by
  have h2 : cg.code.length +
      ([v % 256, v / 256 % 256, v / 65536 % 256, v / 16777216 % 256] : List Nat).length
      ≤ MAX_CODE := by
    simp only [List.length_cons, List.length_nil]
    omega
  rw [emit_u32, emit_bytes_app cg _ h2]
  simp [le32, Nat.mod_mod_of_dvd _ (dvd_refl 256)]

theorem emit_u64_app (cg : CodeGen) (v : Nat)
    (h : cg.code.length + 8 ≤ MAX_CODE) :
    emit_u64 cg v = { cg with code := cg.code ++ le64 v } := by
  have h2 : (cg.code ++ le32 (v % 4294967296)).length + 4 ≤ MAX_CODE := by
    simp only [List.length_append, le32_length]
    omega
  rw [emit_u64, emit_u32_app cg _ (by omega), emit_u32_app _ _ h2]
  simp [le64]

theorem emit_i32_app (cg : CodeGen) (v : Int)
    (h : cg.code.length + 4 ≤ MAX_CODE) :
    emit_i32 cg v = { cg with code := cg.code ++ le32 (toU32 v) } := by
  rw [emit_i32, emit_u32_app cg _ h]

theorem gen_mov_rax_imm_app (cg : CodeGen) (v : Int)
    (h : cg.code.length + 10 ≤ MAX_CODE) :
    gen_mov_rax_imm cg v =
      { cg with code := cg.code ++ [0x48, 0xb8] ++ le64 (toU64 v) } := by
  have h1 : cg.code.length + ([0x48, 0xb8] : List Nat).length ≤ MAX_CODE := by
    simp only [List.length_cons, List.length_nil]
    omega
  have h2 : (cg.code ++ List.map (fun b => b % 256) [0x48, 0xb8]).length + 8
      ≤ MAX_CODE := by
    simp only [List.length_append, List.length_map, List.length_cons,
      List.length_nil]
    omega
  rw [gen_mov_rax_imm, emit_bytes_app cg _ h1, emit_u64_app _ _ h2]
  simp

-- ── parsers touch only the position ───────────────────────────────────────

theorem sbp_refl (k : Core) : SameButPos k k := ⟨rfl, rfl, rfl⟩

theorem sbp_trans {a b c : Core} (h1 : SameButPos a b) (h2 : SameButPos b c) :
    SameButPos a c :=
  ⟨h2.1.trans h1.1, h2.2.1.trans h1.2.1, h2.2.2.trans h1.2.2⟩

theorem adv_sbp (k : Core) : SameButPos k (adv k) := by
  unfold adv; split <;> exact ⟨rfl, rfl, rfl⟩

theorem ite_sbp {p : Prop} [Decidable p] {k a b : Core}
    (ha : SameButPos k a) (hb : SameButPos k b) :
    SameButPos k (if p then a else b) := by
  split <;> assumption

theorem advN_sbp (k : Core) (n : Nat) : SameButPos k (advN k n) := ⟨rfl, rfl, rfl⟩

theorem skipLineA_sbp (f : Nat) (k : Core) : SameButPos k (skipLineA f k) := by
  induction f generalizing k with
  | zero => exact sbp_refl k
  | succ f ih =>
    rw [skipLineA]
    split
    · exact sbp_trans (adv_sbp k) (ih (adv k))
    · exact sbp_refl k

theorem skip_line_sbp (k : Core) : SameButPos k (skip_line k) := by
  unfold skip_line
  dsimp only
  refine sbp_trans (skipLineA_sbp (k.src.length - k.pos + 1) k) ?_
  split
  · exact adv_sbp _
  · exact sbp_refl _

theorem skipWsA_sbp (f : Nat) (k : Core) : SameButPos k (skipWsA f k) := by
  induction f generalizing k with
  | zero => exact sbp_refl k
  | succ f ih =>
    rw [skipWsA]
    dsimp only
    split
    · split
      · exact sbp_trans (adv_sbp k) (ih _)
      · split
        · exact sbp_trans (sbp_trans (adv_sbp k) (adv_sbp _))
            (sbp_trans (skip_line_sbp _) (ih _))
        · exact sbp_refl k
    · exact sbp_refl k

theorem skip_whitespace_sbp (k : Core) : SameButPos k (skip_whitespace k) :=
  skipWsA_sbp _ k

theorem parseIdentA_sbp (f : Nat) (k : Core) (acc : List Nat) :
    SameButPos k (parseIdentA f k acc).1 := by
  induction f generalizing k acc with
  | zero => exact sbp_refl k
  | succ f ih =>
    rw [parseIdentA]
    split
    · exact sbp_trans (adv_sbp k) (ih _ _)
    · exact sbp_refl k

theorem parse_ident_sbp (k : Core) : SameButPos k (parse_ident k).1 :=
  parseIdentA_sbp _ k []

theorem parseStrA_sbp (f : Nat) (k : Core) (acc : List Nat) :
    SameButPos k (parseStrA f k acc).1 := by
  induction f generalizing k acc with
  | zero => exact sbp_refl k
  | succ f ih =>
    rw [parseStrA]
    dsimp only
    split
    · split
      · split
        · exact sbp_trans (sbp_trans (adv_sbp k) (adv_sbp _)) (ih _ _)
        · split
          · exact sbp_trans (sbp_trans (adv_sbp k) (adv_sbp _)) (ih _ _)
          · split
            · exact sbp_trans (sbp_trans (adv_sbp k) (adv_sbp _)) (ih _ _)
            · split
              · exact sbp_trans (sbp_trans (adv_sbp k) (adv_sbp _)) (ih _ _)
              · split
                · exact sbp_trans (sbp_trans (sbp_trans (sbp_trans (adv_sbp k)
                    (adv_sbp _)) (adv_sbp _)) (adv_sbp _)) (ih _ _)
                · exact sbp_trans (sbp_trans (adv_sbp k) (adv_sbp _)) (ih _ _)
      · exact sbp_trans (adv_sbp k) (ih _ _)
    · exact sbp_refl k

theorem parse_string_sbp (k : Core) : SameButPos k (parse_string k).1 := by
  unfold parse_string
  dsimp only
  exact ite_sbp
    (sbp_trans (ite_sbp (adv_sbp k) (sbp_refl k))
      (sbp_trans (parseStrA_sbp _ _ []) (adv_sbp _)))
    (sbp_trans (ite_sbp (adv_sbp k) (sbp_refl k)) (parseStrA_sbp _ _ []))

theorem skipToA_sbp (f : Nat) (k : Core) (b : Nat) :
    SameButPos k (skipToA f k b) := by
  induction f generalizing k with
  | zero => exact sbp_refl k
  | succ f ih =>
    rw [skipToA]
    split
    · exact sbp_trans (adv_sbp k) (ih _)
    · exact sbp_refl k

theorem decLoopA_sbp (f : Nat) (k : Core) (num : Int) :
    SameButPos k (decLoopA f k num).1 := by
  induction f generalizing k num with
  | zero => exact sbp_refl k
  | succ f ih =>
    rw [decLoopA]
    split
    · exact sbp_trans (adv_sbp k) (ih _ _)
    · exact sbp_refl k

theorem hexLoopA_sbp (f : Nat) (k : Core) (num : Int) :
    SameButPos k (hexLoopA f k num).1 := by
  induction f generalizing k num with
  | zero => exact sbp_refl k
  | succ f ih =>
    rw [hexLoopA]
    split
    · exact sbp_trans (adv_sbp k) (ih _ _)
    · exact sbp_refl k

theorem fracLoopA_sbp (f : Nat) (k : Core) (num : Int) (fn fd : Nat) :
    SameButPos k (fracLoopA f k num fn fd).1 := by
  induction f generalizing k num fn fd with
  | zero => exact sbp_refl k
  | succ f ih =>
    rw [fracLoopA]
    split
    · exact sbp_trans (adv_sbp k) (ih _ _ _ _)
    · exact sbp_refl k

-- ═══════════════════════════════════════════════════════════════
-- C8: code-buffer capacity
-- ═══════════════════════════════════════════════════════════════

/-- C8: the code-buffer write cursor never exceeds the buffer capacity:
`emit_byte` is a no-op (buffer and cursor untouched) when the cursor equals
the capacity, and after any sequence of emitter calls — all of which reduce
to `emit_byte` — the cursor stays at most `MAX_CODE`. -/
theorem emit_byte_capacity_spec :
    (∀ (cg : CodeGen) (b : Nat), cg.code.length = MAX_CODE →
      emit_byte cg b = cg) ∧
    (∀ (cg : CodeGen) (bs : List Nat), cg.code.length ≤ MAX_CODE →
      (emit_bytes cg bs).code.length ≤ MAX_CODE) := by
  constructor
  · intro cg b h
    unfold emit_byte
    rw [h]
    simp
  · intro cg bs h
    induction bs generalizing cg with
    | nil => exact h
    | cons b bs ih => exact ih _ (emit_byte_len_le cg b h)

/-- Witness for C8 at a full buffer and at a concrete emission sequence. -/
theorem emit_byte_capacity_spec_witness :
    emit_byte ⟨List.replicate MAX_CODE 0, [], [], 0, 0, 0, [], 0, [], [], 0, 0, false⟩ 7
      = ⟨List.replicate MAX_CODE 0, [], [], 0, 0, 0, [], 0, [], [], 0, 0, false⟩ ∧
    (emit_bytes cg0 [1, 2, 3]).code.length ≤ MAX_CODE := by
  constructor
  · exact emit_byte_capacity_spec.1 _ 7 (by simp)
  · exact emit_byte_capacity_spec.2 cg0 [1, 2, 3] (by simp [cg0])

-- ═══════════════════════════════════════════════════════════════
-- C3: ELF program-header sizes
-- ═══════════════════════════════════════════════════════════════

/-- C3 (amended): the single `PT_LOAD` program header records a file size of
`120 + code_size + data_size`, and a memory size of
`0x600000 − 0x400000 + g + 0x10000` where `g` is `global_data_pos` when it is
positive and `0x1000` otherwise (the code uses this conditional, not
`max(global_area_bytes, 0x1000)` as the claim stated — the two differ when
`0 < global_area_bytes < 0x1000`).  The fields live at offsets 96 and 104 of
the written file. -/
theorem elf_phdr_sizes_spec (cg : CodeGen) :
    ((elf_bytes cg).drop 96).take 8 =
      le64 (120 + (cg.code.length + cg.data.length)) ∧
    ((elf_bytes cg).drop 104).take 8 =
      le64 (6291456 - 4194304 + elfGlobalSize cg + 65536) := by
  constructor <;> rfl

/-- Witness for C3's amended theorem at a concrete compilation. -/
theorem elf_phdr_sizes_spec_witness :
    ((elf_bytes (compile_program unitOps () (strB "x = 0")).core.cg).drop 96).take 8 =
      le64 (120 + ((compile_program unitOps () (strB "x = 0")).core.cg.code.length +
        (compile_program unitOps () (strB "x = 0")).core.cg.data.length)) :=
  (elf_phdr_sizes_spec (compile_program unitOps () (strB "x = 0")).core.cg).1

/-- C3 counterexample: compiling `x = 0` allocates one global
(`global_area_bytes = 8`), and the memory-size field then differs from the
claim's `0x600000 − 0x400000 + max(global_area_bytes, 0x1000) + 0x10000`
(the code writes `0x210008`, the claim demands `0x211000`). -/
theorem elf_memsize_claim_counterexample :
    (compile_program unitOps () (strB "x = 0")).core.cg.global_var_count = 1 ∧
    (compile_program unitOps () (strB "x = 0")).core.cg.global_data_pos =
      8 * (compile_program unitOps () (strB "x = 0")).core.cg.global_var_count ∧
    ((elf_bytes (compile_program unitOps () (strB "x = 0")).core.cg).drop 104).take 8 ≠
      le64 (6291456 - 4194304 +
        max (8 * (compile_program unitOps () (strB "x = 0")).core.cg.global_var_count)
          4096 + 65536) := by
  decide

-- ═══════════════════════════════════════════════════════════════
-- C6: unopenable output file
-- ═══════════════════════════════════════════════════════════════

/-- C6 (amended): when the output file cannot be opened for writing (and the
earlier steps succeeded), `write_elf`/`write_raw` silently return without
writing anything: no stderr message is produced and the process exits with
code 0, not 1. -/
theorem output_open_failure_silent_exit0 (src : List Nat) (rawB : Bool) :
    runMain src true true true false rawB = ⟨0, [], none⟩ := rfl

/-- C6 counterexample: with an unopenable output, the claimed behavior
(short stderr message and exit code 1) does not occur — the exit code is 0
and stderr is empty. -/
theorem output_open_failure_counterexample :
    (runMain (strB "out") true true true false false).exitCode = 0 ∧
    (runMain (strB "out") true true true false false).errs = [] ∧
    ¬((runMain (strB "out") true true true false false).exitCode = 1 ∧
      (runMain (strB "out") true true true false false).errs ≠ []) := by
  refine ⟨rfl, rfl, ?_⟩
  intro h
  exact absurd h.1 (by decide)

-- ── source-window lemmas ──────────────────────────────────────────────────

theorem list_getD_drop (l : List Nat) (n m : Nat) :
    (l.drop n).getD m 0 = l.getD (n + m) 0 := by
  induction n generalizing l with
  | zero => simp
  | succ n ih =>
    cases l with
    | nil => simp
    | cons a l => simpa [Nat.succ_add] using ih l

theorem peekC_eq (k : Core) : peekC k = (k.src.drop k.pos).getD 0 0 := by
  unfold peekC
  rw [list_getD_drop]
  rfl

theorem peekN_eq (k : Core) (n : Nat) :
    peekN k n = (k.src.drop k.pos).getD n 0 := by
  unfold peekN
  rw [list_getD_drop]
  split
  · rfl
  · rw [List.getD_eq_default]
    omega

theorem peekC_cons {k : Core} {b : Nat} {l : List Nat}
    (h : k.src.drop k.pos = b :: l) : peekC k = b := by
  rw [peekC_eq, h]
  rfl

theorem peekN_cons {k : Core} {b b' : Nat} {l : List Nat}
    (h : k.src.drop k.pos = b :: b' :: l) : peekN k 1 = b' := by
  rw [peekN_eq, h]
  rfl

theorem drop_pos_lt {k : Core} {b : Nat} {l : List Nat}
    (h : k.src.drop k.pos = b :: l) : k.pos < k.src.length := by
  by_contra h'
  push_neg at h'
  rw [List.drop_eq_nil_of_le h'] at h
  exact absurd h (by simp)

theorem adv_eq {k : Core} (h : k.pos < k.src.length) :
    adv k = { k with pos := k.pos + 1 } := by
  unfold adv
  simp [h]

theorem adv_drop {k : Core} {b : Nat} {l : List Nat}
    (h : k.src.drop k.pos = b :: l) :
    adv k = { k with pos := k.pos + 1 } ∧
    (adv k).src.drop (adv k).pos = l := by
  have hp := drop_pos_lt h
  refine ⟨adv_eq hp, ?_⟩
  rw [adv_eq hp]
  show k.src.drop (k.pos + 1) = l
  have h2 : k.src.drop (k.pos + 1) = (k.src.drop k.pos).drop 1 := by
    rw [List.drop_drop]
  rw [h2, h]
  rfl

-- ── characterizations of the numeric-literal loops ────────────────────────

theorem decLoopA_digits (ds rest : List Nat) :
    ∀ (f : Nat) (k : Core) (num : Int),
    k.src.drop k.pos = ds ++ rest →
    (∀ d ∈ ds, isDigitB d = true) →
    isDigitB (rest.headD 0) = false →
    ds.length < f →
    decLoopA f k num =
      ({ k with pos := k.pos + ds.length },
       ds.foldl (fun a (d : Nat) => a * 10 + ((d : Int) - 48)) num) := by
  induction ds with
  | nil =>
    intro f k num hdrop _ hrest hf
    match f, hf with
    | f + 1, _ =>
      rw [decLoopA, if_neg]
      · rfl
      · simp only [List.nil_append] at hdrop
        cases hr : rest with
        | nil =>
          rw [hr] at hdrop
          have hlen : k.src.length ≤ k.pos := by
            have h2 := congrArg List.length hdrop
            simp only [List.length_drop, List.length_nil] at h2
            omega
          simp [Nat.not_lt.mpr hlen]
        | cons r t =>
          rw [hr] at hdrop
          have hp := peekC_cons hdrop
          rw [hr] at hrest
          simp only [List.headD_cons] at hrest
          simp [hp, hrest]
  | cons d ds ih =>
    intro f k num hdrop hds hrest hf
    match f, hf with
    | f + 1, hf =>
      have hcons : k.src.drop k.pos = d :: (ds ++ rest) := by simpa using hdrop
      have hp := peekC_cons hcons
      have hlt := drop_pos_lt hcons
      have hadv := adv_drop hcons
      rw [decLoopA, if_pos]
      · rw [ih f (adv k) _ hadv.2 (fun x hx => hds x (by simp [hx])) hrest
          (by simp only [List.length_cons] at hf; omega), hadv.1, hp]
        simp only [List.foldl_cons, List.length_cons]
        rw [show k.pos + 1 + ds.length = k.pos + (ds.length + 1) from by omega]
      · simp [hlt, hp, hds d (by simp)]

theorem hexLoopA_digits (ds rest : List Nat) :
    ∀ (f : Nat) (k : Core) (num : Int),
    k.src.drop k.pos = ds ++ rest →
    (∀ d ∈ ds, isXdigitB d = true) →
    isXdigitB (rest.headD 0) = false →
    ds.length < f →
    hexLoopA f k num =
      ({ k with pos := k.pos + ds.length },
       ds.foldl (fun a (d : Nat) => a * 16 + (hexDigitVal d : Int)) num) := by
  induction ds with
  | nil =>
    intro f k num hdrop _ hrest hf
    match f, hf with
    | f + 1, _ =>
      rw [hexLoopA, if_neg]
      · rfl
      · simp only [List.nil_append] at hdrop
        cases hr : rest with
        | nil =>
          rw [hr] at hdrop
          have hlen : k.src.length ≤ k.pos := by
            have h2 := congrArg List.length hdrop
            simp only [List.length_drop, List.length_nil] at h2
            omega
          simp [Nat.not_lt.mpr hlen]
        | cons r t =>
          rw [hr] at hdrop
          have hp := peekC_cons hdrop
          rw [hr] at hrest
          simp only [List.headD_cons] at hrest
          simp [hp, hrest]
  | cons d ds ih =>
    intro f k num hdrop hds hrest hf
    match f, hf with
    | f + 1, hf =>
      have hcons : k.src.drop k.pos = d :: (ds ++ rest) := by simpa using hdrop
      have hp := peekC_cons hcons
      have hlt := drop_pos_lt hcons
      have hadv := adv_drop hcons
      rw [hexLoopA, if_pos]
      · rw [ih f (adv k) _ hadv.2 (fun x hx => hds x (by simp [hx])) hrest
          (by simp only [List.length_cons] at hf; omega), hadv.1, hp]
        simp only [List.foldl_cons, List.length_cons]
        rw [show k.pos + 1 + ds.length = k.pos + (ds.length + 1) from by omega]
      · simp [hlt, hp, hds d (by simp)]

theorem fracLoopA_noop (ds rest : List Nat) :
    ∀ (f : Nat) (k : Core) (num : Int) (fn fd : Nat),
    k.src.drop k.pos = ds ++ rest →
    (∀ d ∈ ds, isDigitB d = true) →
    isDigitB (rest.headD 0) = false →
    ds.length < f →
    9 * fn < fd →
    fracLoopA f k num fn fd = ({ k with pos := k.pos + ds.length }, num) := by
  induction ds with
  | nil =>
    intro f k num fn fd hdrop _ hrest hf _
    match f, hf with
    | f + 1, _ =>
      rw [fracLoopA, if_neg]
      · rfl
      · simp only [List.nil_append] at hdrop
        cases hr : rest with
        | nil =>
          rw [hr] at hdrop
          have hlen : k.src.length ≤ k.pos := by
            have h2 := congrArg List.length hdrop
            simp only [List.length_drop, List.length_nil] at h2
            omega
          simp [Nat.not_lt.mpr hlen]
        | cons r t =>
          rw [hr] at hdrop
          have hp := peekC_cons hdrop
          rw [hr] at hrest
          simp only [List.headD_cons] at hrest
          simp [hp, hrest]
  | cons d ds ih =>
    intro f k num fn fd hdrop hds hrest hf hfd
    match f, hf with
    | f + 1, hf =>
      have hcons : k.src.drop k.pos = d :: (ds ++ rest) := by simpa using hdrop
      have hp := peekC_cons hcons
      have hlt := drop_pos_lt hcons
      have hadv := adv_drop hcons
      have hd9 : d ≤ 57 := by
        have := hds d (by simp)
        simp only [isDigitB, Bool.and_eq_true, decide_eq_true_eq] at this
        exact this.2
      have hzero : ((d - 48) * fn) / fd = 0 := by
        apply Nat.div_eq_of_lt
        calc (d - 48) * fn ≤ 9 * fn := Nat.mul_le_mul_right fn (by omega)
        _ < fd := hfd
      rw [fracLoopA, if_pos]
      · rw [hp, hzero]
        rw [ih f (adv k) _ fn (fd * 10) hadv.2
          (fun x hx => hds x (by simp [hx])) hrest
          (by simp only [List.length_cons] at hf; omega) (by omega), hadv.1]
        simp only [List.length_cons, Nat.cast_zero, add_zero]
        rw [show k.pos + 1 + ds.length = k.pos + (ds.length + 1) from by omega]
      · simp [hlt, hp, hds d (by simp)]

theorem list_getD_zero (l : List Nat) : l.getD 0 0 = l.headD 0 := by
  cases l <;> rfl

theorem peekC_headD {k : Core} {l : List Nat} (h : k.src.drop k.pos = l) :
    peekC k = l.headD 0 := by
  rw [peekC_eq, h, list_getD_zero]

theorem drop_add_core (l : List Nat) (n m : Nat) :
    l.drop (n + m) = (l.drop n).drop m := by
  rw [List.drop_drop]

theorem parse_number_sbp (k : Core) : SameButPos k (parse_number k).1 := by
  unfold parse_number
  dsimp only
  have hk1 : SameButPos k (if peekC k == 45 then adv k else k) :=
    ite_sbp (adv_sbp k) (sbp_refl k)
  rw [apply_ite Prod.fst]
  refine ite_sbp (sbp_trans ?_ (sbp_trans (adv_sbp _) (fracLoopA_sbp _ _ _ _ _)))
    ?_ <;>
  · rw [apply_ite Prod.fst]
    exact ite_sbp
      (sbp_trans hk1 (sbp_trans (adv_sbp _) (sbp_trans (adv_sbp _)
        (hexLoopA_sbp _ _ _))))
      (sbp_trans hk1 (decLoopA_sbp _ _ _))

-- ═══════════════════════════════════════════════════════════════
-- C7: parse_number truncates fractions
-- ═══════════════════════════════════════════════════════════════

/-- C7: a numeric literal with a fractional part parses to its integer part:
the digits after `.` are consumed but contribute nothing (each per-digit
contribution `(int64_t)(digit * frac)` truncates to zero since
`0 ≤ digit * frac < 1`); a leading `-` negates the result of parsing the
rest; `0x` introduces hexadecimal. -/
theorem parse_number_truncation_spec :
    (∀ (k : Core) (ds1 ds2 rest : List Nat),
      k.src.drop k.pos = ds1 ++ 46 :: (ds2 ++ rest) →
      (∀ d ∈ ds1, isDigitB d = true) →
      (∀ d ∈ ds2, isDigitB d = true) →
      isDigitB (rest.headD 0) = false →
      parse_number k =
        ({ k with pos := k.pos + ds1.length + 1 + ds2.length }, decVal ds1)) ∧
    (∀ (k : Core) (tail : List Nat),
      k.src.drop k.pos = 45 :: tail →
      tail.headD 0 ≠ 45 →
      parse_number k = ((parse_number (adv k)).1, -(parse_number (adv k)).2)) ∧
    (∀ (k : Core) (hs rest : List Nat),
      k.src.drop k.pos = 48 :: 120 :: (hs ++ rest) →
      (∀ d ∈ hs, isXdigitB d = true) →
      isXdigitB (rest.headD 0) = false →
      rest.headD 0 ≠ 46 →
      parse_number k = ({ k with pos := k.pos + 2 + hs.length }, hexVal hs)) := by
  refine ⟨?_, ?_, ?_⟩
  · intro k ds1 ds2 rest hdrop hds1 hds2 hrest
    have hlen := congrArg List.length hdrop
    simp only [List.length_drop, List.length_append, List.length_cons] at hlen
    have hneg : (peekC k == 45) = false := by
      cases ds1 with
      | nil =>
        have hp := peekC_cons (by simpa using hdrop)
        simp [hp]
      | cons d t =>
        have hp := peekC_cons (by simpa using hdrop)
        have hd := hds1 d (by simp)
        simp only [isDigitB, Bool.and_eq_true, decide_eq_true_eq] at hd
        simp only [hp, beq_eq_false_iff_ne, ne_eq]
        omega
    have hhex : (peekC k == 48 && peekN k 1 == 120) = false := by
      cases ds1 with
      | nil =>
        have hp := peekC_cons (by simpa using hdrop)
        simp [hp]
      | cons d t =>
        cases t with
        | nil =>
          have hp2 : peekN k 1 = 46 := peekN_cons (by simpa using hdrop)
          simp [hp2]
        | cons d2 t2 =>
          have hp2 : peekN k 1 = d2 := peekN_cons (by simpa using hdrop)
          have hd := hds1 d2 (by simp)
          simp only [isDigitB, Bool.and_eq_true, decide_eq_true_eq] at hd
          have : (d2 == 120) = false := by
            simp only [beq_eq_false_iff_ne, ne_eq]
            omega
          simp [hp2, this]
    have hdec := decLoopA_digits ds1 (46 :: (ds2 ++ rest))
      (k.src.length - k.pos + 1) k 0 hdrop hds1 (by rfl) (by omega)
    have hdropm : ({ k with pos := k.pos + ds1.length } : Core).src.drop
        ({ k with pos := k.pos + ds1.length } : Core).pos = 46 :: (ds2 ++ rest) := by
      show k.src.drop (k.pos + ds1.length) = _
      rw [drop_add_core, hdrop, List.drop_left]
    have hdot : peekC ({ k with pos := k.pos + ds1.length } : Core) = 46 :=
      peekC_cons hdropm
    have hadv := adv_drop hdropm
    have hfrac := fracLoopA_noop ds2 rest
      ((adv ({ k with pos := k.pos + ds1.length } : Core)).src.length -
        (adv ({ k with pos := k.pos + ds1.length } : Core)).pos + 1)
      (adv ({ k with pos := k.pos + ds1.length } : Core))
      (List.foldl (fun a (d : Nat) => a * 10 + ((d : Int) - 48)) 0 ds1) 1 10
      hadv.2 hds2 hrest
      (by
        have h2 := congrArg List.length hadv.2
        simp only [List.length_drop, List.length_append] at h2
        omega)
      (by omega)
    simp only [parse_number, hneg, hhex, Bool.false_eq_true, if_false, if_true]
    rw [hdec]
    simp only [hdot]
    rw [if_pos (by rfl)]
    rw [hfrac, hadv.1]
    rfl
  · intro k tail hdrop hne
    have hp := peekC_cons hdrop
    have hadv := adv_drop hdrop
    have hneg : (peekC k == 45) = true := by simp [hp]
    have hneg2 : (peekC (adv k) == 45) = false := by
      have h2 : peekC (adv k) = tail.headD 0 := peekC_headD hadv.2
      simp only [h2, beq_eq_false_iff_ne, ne_eq]
      exact hne
    simp only [parse_number, hneg, hneg2, Bool.false_eq_true, if_false, if_true]
  · intro k hs rest hdrop hxs hrest hdot
    have hlen := congrArg List.length hdrop
    simp only [List.length_drop, List.length_append, List.length_cons] at hlen
    have hp : peekC k = 48 := peekC_cons hdrop
    have hp2 : peekN k 1 = 120 := peekN_cons hdrop
    have hneg : (peekC k == 45) = false := by simp [hp]
    have hhex : (peekC k == 48 && peekN k 1 == 120) = true := by simp [hp, hp2]
    have hadv1 := adv_drop hdrop
    have hadv2 := adv_drop hadv1.2
    have hhexl := hexLoopA_digits hs rest
      ((adv (adv k)).src.length - (adv (adv k)).pos + 1) (adv (adv k)) 0
      hadv2.2 hxs hrest
      (by
        have h2 := congrArg List.length hadv2.2
        simp only [List.length_drop, List.length_append] at h2
        omega)
    have hcollapse : adv (adv k) = ({ k with pos := k.pos + 2 } : Core) := by
      rw [hadv1.1] at hadv2
      rw [hadv1.1, hadv2.1]
    have hdropm : ({ k with pos := k.pos + 2 + hs.length } : Core).src.drop
        ({ k with pos := k.pos + 2 + hs.length } : Core).pos = rest := by
      show k.src.drop (k.pos + 2 + hs.length) = _
      rw [drop_add_core, drop_add_core, hdrop]
      show ((hs ++ rest).drop hs.length) = rest
      rw [List.drop_left]
    have hnodot : (peekC ({ k with pos := k.pos + 2 + hs.length } : Core) == 46)
        = false := by
      have h2 : peekC ({ k with pos := k.pos + 2 + hs.length } : Core) =
          rest.headD 0 := peekC_headD hdropm
      simp only [h2, beq_eq_false_iff_ne, ne_eq]
      exact hdot
    simp only [parse_number, hneg, hhex, Bool.false_eq_true, if_false, if_true]
    rw [hhexl, hcollapse]
    simp only [hnodot, Bool.false_eq_true, if_false]
    rfl

/-- Witness for C7: `1.5` parses to `1`, `-7` to the negation of `7`, and
`0x1f` to 31. -/
theorem parse_number_truncation_spec_witness :
    parse_number ⟨strB "1.5", 0, [], cg0⟩ = (⟨strB "1.5", 3, [], cg0⟩, 1) ∧
    parse_number ⟨strB "-7", 0, [], cg0⟩ =
      ((parse_number (adv ⟨strB "-7", 0, [], cg0⟩)).1,
       -(parse_number (adv ⟨strB "-7", 0, [], cg0⟩)).2) ∧
    parse_number ⟨strB "0x1f", 0, [], cg0⟩ = (⟨strB "0x1f", 4, [], cg0⟩, 31) := by
  refine ⟨?_, ?_, ?_⟩
  · exact (parse_number_truncation_spec.1 ⟨strB "1.5", 0, [], cg0⟩ [49] [53] []
      (by decide) (by decide) (by decide) (by decide)).trans (by decide)
  · exact parse_number_truncation_spec.2.1 ⟨strB "-7", 0, [], cg0⟩ [55]
      (by decide) (by decide)
  · exact (parse_number_truncation_spec.2.2 ⟨strB "0x1f", 0, [], cg0⟩ [49, 102] []
      (by decide) (by decide) (by decide) (by decide)).trans (by decide)

-- ═══════════════════════════════════════════════════════════════
-- C10: empty `out`/`emit` strings are frame-preserving
-- ═══════════════════════════════════════════════════════════════

/-- C10: an `out` or `emit` statement whose string literal resolves to the
empty string (length 0 after escape processing, as measured by `strlen`)
emits nothing: the resulting state is exactly the post-parse state, with the
code buffer, cursor, fixup/label/variable tables and the loop stack
untouched. -/
theorem empty_string_out_emit_noop_spec (k : Core)
    (h : strlenB (parse_string (skip_whitespace k)).2 = 0) :
    compile_out k = (parse_string (skip_whitespace k)).1 ∧
    compile_emit k = (parse_string (skip_whitespace k)).1 ∧
    (compile_out k).cg = k.cg ∧
    (compile_emit k).cg = k.cg ∧
    (compile_out k).loops = k.loops ∧
    (compile_out k).src = k.src := by
  have hs := sbp_trans (skip_whitespace_sbp k) (parse_string_sbp (skip_whitespace k))
  have h1 : compile_out k = (parse_string (skip_whitespace k)).1 := by
    unfold compile_out
    dsimp only
    rw [if_pos (by simp [h])]
  have h2 : compile_emit k = (parse_string (skip_whitespace k)).1 := by
    unfold compile_emit
    dsimp only
    rw [if_pos (by simp [h])]
  refine ⟨h1, h2, ?_, ?_, ?_, ?_⟩
  · rw [h1]; exact hs.2.2
  · rw [h2]; exact hs.2.2
  · rw [h1]; exact hs.2.1
  · rw [h1]; exact hs.1

/-- Witness for C10 at the literal `""`. -/
theorem empty_string_out_emit_noop_spec_witness :
    strlenB (parse_string (skip_whitespace ⟨strB "\"\"", 0, [], cg0⟩)).2 = 0 ∧
    (compile_out ⟨strB "\"\"", 0, [], cg0⟩).cg = cg0 ∧
    (compile_emit ⟨strB "\"\"", 0, [], cg0⟩).cg = cg0 := by
  refine ⟨by decide, ?_, ?_⟩
  · exact (empty_string_out_emit_noop_spec ⟨strB "\"\"", 0, [], cg0⟩ (by decide)).2.2.1
  · exact (empty_string_out_emit_noop_spec ⟨strB "\"\"", 0, [], cg0⟩ (by decide)).2.2.2.1

-- ═══════════════════════════════════════════════════════════════
-- C9: an undefined variable read compiles like the literal 0
-- ═══════════════════════════════════════════════════════════════

theorem ident_start_facts (x : Nat) (h : is_ident_start x = true) :
    isDigitB x = false ∧ (x == 45) = false ∧ (x == 34) = false := by
  simp only [is_ident_start, isAlphaB, Bool.or_eq_true,
    Bool.and_eq_true, decide_eq_true_eq, beq_iff_eq] at h
  refine ⟨?_, ?_, ?_⟩
  · cases hB : isDigitB x
    · rfl
    · exfalso
      simp only [isDigitB, Bool.and_eq_true, decide_eq_true_eq] at hB
      omega
  · cases hB : x == 45
    · rfl
    · exfalso
      simp only [beq_iff_eq] at hB
      omega
  · cases hB : x == 34
    · rfl
    · exfalso
      simp only [beq_iff_eq] at hB
      omega

/-- C9: an identifier expression not followed by `(` whose name is not in
the variable table compiles to `movabs rax, 0` — ten bytes
`48 b8 00…00` — with every table unchanged and no error of any kind; a
primary literal `0` emits exactly the same ten bytes, so an undefined
variable read compiles exactly like the literal 0. -/
theorem undefined_var_loads_zero_spec :
    (∀ {T : Type} (o : TelOps T) (n : Nat) (c : Comp T),
      is_ident_start (peekC (skip_whitespace c.core)) = true →
      (peekC (skip_whitespace (parse_ident (skip_whitespace c.core)).1) == 40)
        = false →
      find_var c.core.cg.vars (parse_ident (skip_whitespace c.core)).2 = none →
      c.core.cg.code.length + 10 ≤ MAX_CODE →
      exprPrimary o (n + 1) c =
        ⟨{ skip_whitespace (parse_ident (skip_whitespace c.core)).1 with
            cg := { c.core.cg with
              code := c.core.cg.code ++ [0x48, 0xb8, 0, 0, 0, 0, 0, 0, 0, 0] } },
          c.tel⟩) ∧
    (∀ {T : Type} (o : TelOps T) (n : Nat) (c : Comp T) (rest : List Nat),
      (skip_whitespace c.core).src.drop (skip_whitespace c.core).pos
        = 48 :: rest →
      isDigitB (rest.headD 0) = false →
      rest.headD 0 ≠ 120 →
      rest.headD 0 ≠ 46 →
      c.core.cg.code.length + 10 ≤ MAX_CODE →
      exprPrimary o (n + 1) c =
        ⟨{ skip_whitespace c.core with
            pos := (skip_whitespace c.core).pos + 1,
            cg := { c.core.cg with
              code := c.core.cg.code ++ [0x48, 0xb8, 0, 0, 0, 0, 0, 0, 0, 0] } },
          c.tel⟩) := by
  constructor
  · intro T o n c hident hnp hfv hcap
    obtain ⟨hd, h45, h34⟩ := ident_start_facts _ hident
    have hc1 : (isDigitB (peekC (skip_whitespace c.core)) ||
        (peekC (skip_whitespace c.core) == 45 &&
         isDigitB (peekN (skip_whitespace c.core) 1))) = false := by
      rw [hd, h45]
      rfl
    rcases hpi : parse_ident (skip_whitespace c.core) with ⟨k2, name⟩
    rw [hpi] at hnp hfv
    have hcg2 : (skip_whitespace k2).cg = c.core.cg := by
      have h1 := skip_whitespace_sbp c.core
      have h2 := parse_ident_sbp (skip_whitespace c.core)
      rw [hpi] at h2
      have h3 := skip_whitespace_sbp k2
      rw [h3.2.2, h2.2.2, h1.2.2]
    conv_lhs => rw [exprPrimary]
    dsimp only [onCore]
    rw [hc1, if_neg Bool.false_ne_true, h34, if_neg Bool.false_ne_true,
      hident, if_pos rfl, hpi]
    dsimp only
    rw [hnp, if_neg Bool.false_ne_true]
    unfold exprVar
    rw [hcg2, hfv]
    rw [gen_mov_rax_imm_app _ _ hcap]
    have hz : (c.core.cg.code ++ [0x48, 0xb8]) ++ le64 (toU64 0)
        = c.core.cg.code ++ [0x48, 0xb8, 0, 0, 0, 0, 0, 0, 0, 0] := by
      rw [List.append_assoc]
      rfl
    rw [hz]
  · intro T o n c rest hdrop hrd h120 h46 hcap
    have hp : peekC (skip_whitespace c.core) = 48 := peekC_cons hdrop
    have hlt := drop_pos_lt hdrop
    have hpn1 : peekN (skip_whitespace c.core) 1 = rest.headD 0 := by
      rw [peekN_eq, hdrop]
      cases rest <;> rfl
    have hadv := adv_drop hdrop
    have hdec := decLoopA_digits [48] rest
      ((skip_whitespace c.core).src.length - (skip_whitespace c.core).pos + 1)
      (skip_whitespace c.core) 0 (by simpa using hdrop) (by decide) hrd
      (by
        have h2 := congrArg List.length hdrop
        simp only [List.length_drop, List.length_cons] at h2
        simp only [List.length_cons, List.length_nil]
        omega)
    have hdropm : ({ skip_whitespace c.core with
        pos := (skip_whitespace c.core).pos + 1 } : Core).src.drop
        ({ skip_whitespace c.core with
          pos := (skip_whitespace c.core).pos + 1 } : Core).pos = rest := by
      show (skip_whitespace c.core).src.drop ((skip_whitespace c.core).pos + 1) = rest
      rw [drop_add_core, hdrop]
      rfl
    have hdot : (peekC ({ skip_whitespace c.core with
        pos := (skip_whitespace c.core).pos + 1 } : Core) == 46) = false := by
      have h2 := peekC_headD hdropm
      simp only [h2, beq_eq_false_iff_ne, ne_eq]
      exact h46
    have hpn : parse_number (skip_whitespace c.core) =
        ({ skip_whitespace c.core with pos := (skip_whitespace c.core).pos + 1 },
         0 * 10 + ((48 : Int) - 48)) := by
      have hneg : (peekC (skip_whitespace c.core) == 45) = false := by simp [hp]
      have hhex : (peekC (skip_whitespace c.core) == 48 &&
          peekN (skip_whitespace c.core) 1 == 120) = false := by
        have h2 : (rest.headD 0 == 120) = false := by
          simp only [beq_eq_false_iff_ne, ne_eq]
          exact h120
        rw [hpn1, h2, Bool.and_false]
      simp only [parse_number, hneg, hhex, Bool.false_eq_true, if_false, if_true]
      rw [hdec]
      simp only [List.length_cons, List.length_nil, List.foldl_cons,
        List.foldl_nil, hdot, Bool.false_eq_true, if_false]
      rfl
    have hdig : (isDigitB (peekC (skip_whitespace c.core)) ||
        (peekC (skip_whitespace c.core) == 45 &&
          isDigitB (peekN (skip_whitespace c.core) 1))) = true := by
      simp [hp, isDigitB]
    conv_lhs => rw [exprPrimary]
    dsimp only [onCore]
    rw [hdig, if_pos rfl]
    unfold exprNum
    rw [hpn]
    dsimp only
    have hcg3 : (skip_whitespace c.core).cg = c.core.cg :=
      (skip_whitespace_sbp c.core).2.2
    rw [hcg3]
    rw [gen_mov_rax_imm_app _ _ hcap]
    have hz : le64 (toU64 (0 * 10 + ((48 : Int) - 48)))
        = ([0, 0, 0, 0, 0, 0, 0, 0] : List Nat) := by decide
    rw [hz]
    have hz2 : (c.core.cg.code ++ [0x48, 0xb8]) ++ [0, 0, 0, 0, 0, 0, 0, 0]
        = c.core.cg.code ++ [0x48, 0xb8, 0, 0, 0, 0, 0, 0, 0, 0] := by
      rw [List.append_assoc]
      rfl
    rw [hz2]

/-- Witness for C9: compiling the undefined identifier `q` and the literal
`0` both append exactly `48 b8 00 00 00 00 00 00 00 00`. -/
theorem undefined_var_loads_zero_spec_witness :
    exprPrimary unitOps 1 ⟨⟨strB "q", 0, [], cg0⟩, ()⟩ =
      ⟨{ skip_whitespace (parse_ident (skip_whitespace ⟨strB "q", 0, [], cg0⟩)).1 with
          cg := { cg0 with
            code := [0x48, 0xb8, 0, 0, 0, 0, 0, 0, 0, 0] } }, ()⟩ ∧
    exprPrimary unitOps 1 ⟨⟨strB "0", 0, [], cg0⟩, ()⟩ =
      ⟨{ skip_whitespace ⟨strB "0", 0, [], cg0⟩ with
          pos := (skip_whitespace (⟨strB "0", 0, [], cg0⟩ : Core)).pos + 1,
          cg := { cg0 with
            code := [0x48, 0xb8, 0, 0, 0, 0, 0, 0, 0, 0] } }, ()⟩ := by
  constructor
  · exact (undefined_var_loads_zero_spec.1 unitOps 0 ⟨⟨strB "q", 0, [], cg0⟩, ()⟩
      (by decide) (by decide) (by decide) (by decide)).trans (by decide)
  · exact (undefined_var_loads_zero_spec.2 unitOps 0 ⟨⟨strB "0", 0, [], cg0⟩, ()⟩ []
      (by decide) (by decide) (by decide) (by decide) (by decide)).trans (by decide)

-- ═══════════════════════════════════════════════════════════════
-- C5: string-literal primaries — jmp over inline bytes, lea back
-- ═══════════════════════════════════════════════════════════════

/-- Characterization of the string-literal emission `exprStr` under the
code-capacity bound: jmp byte, truncated displacement, masked string bytes,
NUL, `lea` opcode, and the little-endian back displacement `-(len+8)`. -/
theorem exprStr_app (k : Core)
    (hcap : k.cg.code.length + strlenB (parse_string k).2 + 10 ≤ MAX_CODE) :
    exprStr k =
      { (parse_string k).1 with cg := { k.cg with code :=
          (k.cg.code ++
           [0xeb, (strlenB (parse_string k).2 + 1) % 256] ++
           ((parse_string k).2.takeWhile (fun b => b != 0)).map
             (fun b => b % 256) ++
           [0] ++ [0x48, 0x8d, 0x05] ++
           le32 (toU32 (-((strlenB (parse_string k).2 + 8 : Nat) : Int)))) } } := by
  rcases hps : parse_string k with ⟨k2, s⟩
  rw [hps] at hcap
  dsimp only at hcap ⊢
  have hlen : (s.takeWhile (fun b => b != 0)).length = strlenB s := rfl
  have h1 : emit_byte (emit_byte k.cg 0xeb) (strlenB s + 1)
      = { k.cg with code := k.cg.code ++ [0xeb, (strlenB s + 1) % 256] } := by
    rw [emit_byte_app k.cg 0xeb (by omega)]
    rw [emit_byte_app _ _ (by
      show (k.cg.code ++ [0xeb % 256]).length < MAX_CODE
      simp only [List.length_append, List.length_cons, List.length_nil]
      omega)]
    dsimp only
    rw [List.append_assoc]
    rfl
  have h2 : emit_bytes
      ({ k.cg with code := k.cg.code ++ [0xeb, (strlenB s + 1) % 256] })
      (s.takeWhile (fun b => b != 0) ++ [0])
      = { k.cg with code :=
          (k.cg.code ++ [0xeb, (strlenB s + 1) % 256]) ++
          ((s.takeWhile (fun b => b != 0)).map (fun b => b % 256) ++ [0]) } := by
    rw [emit_bytes_app _ _ (by
      show (k.cg.code ++ [0xeb, (strlenB s + 1) % 256]).length
          + (s.takeWhile (fun b => b != 0) ++ [0]).length ≤ MAX_CODE
      simp only [List.length_append, List.length_cons, List.length_nil, hlen]
      omega)]
    dsimp only
    rw [List.map_append]
    rfl
  have h3 : emit_bytes
      ({ k.cg with code :=
          (k.cg.code ++ [0xeb, (strlenB s + 1) % 256]) ++
          ((s.takeWhile (fun b => b != 0)).map (fun b => b % 256) ++ [0]) })
      [0x48, 0x8d, 0x05]
      = { k.cg with code :=
          ((k.cg.code ++ [0xeb, (strlenB s + 1) % 256]) ++
           ((s.takeWhile (fun b => b != 0)).map (fun b => b % 256) ++ [0])) ++
          [0x48, 0x8d, 0x05] } := by
    rw [emit_bytes_app _ _ (by
      show ((k.cg.code ++ [0xeb, (strlenB s + 1) % 256]) ++
          ((s.takeWhile (fun b => b != 0)).map (fun b => b % 256) ++ [0])).length
          + ([0x48, 0x8d, 0x05] : List Nat).length ≤ MAX_CODE
      simp only [List.length_append, List.length_cons, List.length_nil,
        List.length_map, hlen]
      omega)]
    rfl
  have hk2cg : k2.cg = k.cg := by
    have h := parse_string_sbp k
    rw [hps] at h
    exact h.2.2
  unfold exprStr
  rw [hps]
  dsimp only
  rw [hk2cg]
  rw [h1, h2, h3]
  dsimp only
  have harith : ((k.cg.code ++ [0xeb, (strlenB s + 1) % 256]) ++
      ((s.takeWhile (fun b => b != 0)).map (fun b => b % 256) ++ [0])).length
      - (k.cg.code ++ [0xeb, (strlenB s + 1) % 256]).length + 7
      = strlenB s + 8 := by
    simp only [List.length_append, List.length_cons, List.length_nil,
      List.length_map, hlen]
    omega
  rw [harith]
  rw [emit_i32_app _ _ (by
    show (((k.cg.code ++ [0xeb, (strlenB s + 1) % 256]) ++
        ((s.takeWhile (fun b => b != 0)).map (fun b => b % 256) ++ [0])) ++
        [0x48, 0x8d, 0x05]).length + 4 ≤ MAX_CODE
    simp only [List.length_append, List.length_cons, List.length_nil,
      List.length_map, hlen]
    omega)]
  dsimp only
  simp only [List.append_assoc]

/-- C5 (amended): a string-literal primary with parsed bytes `s` and resolved
length `len = strlenB s` appends exactly `EB ((len+1) mod 256)`, then the
string bytes (masked to 8 bits) plus a NUL, then `48 8D 05` with
little-endian displacement `-(len+8)`, which makes the `lea` address the
first inline string byte.  The short-`jmp` displacement byte is
`(len+1) mod 256` because `emit_byte` truncates its operand to `uint8_t`;
it equals the claimed `len+1` only when `len ≤ 254`. -/
theorem string_literal_inline_spec :
    (∀ (k : Core),
      k.cg.code.length + strlenB (parse_string k).2 + 10 ≤ MAX_CODE →
      exprStr k =
        { (parse_string k).1 with cg := { k.cg with code :=
            (k.cg.code ++
             [0xeb, (strlenB (parse_string k).2 + 1) % 256] ++
             ((parse_string k).2.takeWhile (fun b => b != 0)).map
               (fun b => b % 256) ++
             [0] ++ [0x48, 0x8d, 0x05] ++
             le32 (toU32 (-((strlenB (parse_string k).2 + 8 : Nat) : Int)))) } }) ∧
    (∀ len : Nat, len ≤ 254 → (len + 1) % 256 = len + 1) := by
  constructor
  · intro k hcap
    exact exprStr_app k hcap
  · intro len h
    omega

/-- Witness for C5: the two-byte string `"hi"` emits
`EB 03 68 69 00 48 8D 05 F6 FF FF FF` (jmp disp 3, bytes+NUL, lea with
displacement −10), and for `len = 254` the displacement byte is `len+1`. -/
theorem string_literal_inline_spec_witness :
    exprStr ⟨[34, 104, 105, 34], 0, [], cg0⟩ =
      ⟨[34, 104, 105, 34], 4, [],
        { cg0 with code :=
            [0xeb, 3, 104, 105, 0, 0x48, 0x8d, 0x05,
             0xf6, 0xff, 0xff, 0xff] }⟩ ∧
    (254 + 1) % 256 = 254 + 1 := by
  constructor
  · exact (string_literal_inline_spec.1 ⟨[34, 104, 105, 34], 0, [], cg0⟩
      (by decide)).trans (by decide)
  · exact string_literal_inline_spec.2 254 (by decide)

/-- Counterexample for C5: for a 255-byte string literal the emitted short
`jmp` displacement byte is `(255+1) mod 256 = 0`, not a skip of exactly
`len+1 = 256` bytes: the jump lands on the first inline string byte. -/
theorem string_literal_short_jmp_counterexample :
    strlenB (parse_string ⟨34 :: (List.replicate 255 97 ++ [34]), 0, [], cg0⟩).2
      = 255 ∧
    (exprStr ⟨34 :: (List.replicate 255 97 ++ [34]), 0, [], cg0⟩).cg.code.getD 1 9999
      = 0 ∧
    (0 : Nat) ≠ 255 + 1 := by
  refine ⟨by decide, ?_, by decide⟩
  rw [exprStr_app ⟨34 :: (List.replicate 255 97 ++ [34]), 0, [], cg0⟩ (by decide)]
  decide

-- ═══════════════════════════════════════════════════════════════
-- C1: resolve_fixups patches each fixup from the first matching label
-- ═══════════════════════════════════════════════════════════════

theorem getD_set_self (l : List Nat) : ∀ (i a : Nat), i < l.length →
    (l.set i a).getD i 0 = a := by
  induction l with
  | nil =>
    intro i a h
    simp at h
  | cons x xs ih =>
    intro i a h
    cases i with
    | zero => rfl
    | succ j =>
      simp only [List.set_cons_succ, List.getD_cons_succ]
      exact ih j a (by simpa using h)

theorem getD_set_ne (l : List Nat) : ∀ (i j a : Nat), i ≠ j →
    (l.set i a).getD j 0 = l.getD j 0 := by
  induction l with
  | nil =>
    intro i j a _
    rfl
  | cons x xs ih =>
    intro i j a h
    cases i with
    | zero =>
      cases j with
      | zero => exact absurd rfl h
      | succ m => rfl
    | succ n =>
      cases j with
      | zero => rfl
      | succ m =>
        simp only [List.set_cons_succ, List.getD_cons_succ]
        exact ih n m a (by omega)

theorem patch4_length (code : List Nat) (p v : Nat) :
    (patch4 code p v).length = code.length := by
  simp [patch4]

theorem read4_patch4_self (code : List Nat) (p v : Nat)
    (h : p + 4 ≤ code.length) :
    read4 (patch4 code p v) p = le32 v := by
  simp only [read4, patch4, le32, List.cons.injEq, and_true]
  refine ⟨?_, ?_, ?_, ?_⟩
  · rw [getD_set_ne _ _ _ _ (by omega), getD_set_ne _ _ _ _ (by omega),
      getD_set_ne _ _ _ _ (by omega)]
    exact getD_set_self code p _ (by omega)
  · rw [getD_set_ne _ _ _ _ (by omega), getD_set_ne _ _ _ _ (by omega)]
    exact getD_set_self _ (p + 1) _ (by simp only [List.length_set]; omega)
  · rw [getD_set_ne _ _ _ _ (by omega)]
    exact getD_set_self _ (p + 2) _ (by simp only [List.length_set]; omega)
  · exact getD_set_self _ (p + 3) _ (by simp only [List.length_set]; omega)

theorem read4_patch4_disjoint (code : List Nat) (p v q : Nat)
    (h : p + 4 ≤ q ∨ q + 4 ≤ p) :
    read4 (patch4 code p v) q = read4 code q := by
  simp only [read4, patch4, List.cons.injEq, and_true]
  refine ⟨?_, ?_, ?_, ?_⟩ <;>
    rw [getD_set_ne _ _ _ _ (by omega), getD_set_ne _ _ _ _ (by omega),
      getD_set_ne _ _ _ _ (by omega), getD_set_ne _ _ _ _ (by omega)]

theorem resolveOne_length (labels : List (List Nat × Nat)) (code : List Nat)
    (g : Nat × List Nat) : (resolveOne labels code g).length = code.length := by
  rcases h : findLabelPos labels g.2 with _ | t
  · simp [resolveOne, h]
  · simp [resolveOne, h, patch4_length]

theorem read4_resolveOne_disjoint (labels : List (List Nat × Nat))
    (code : List Nat) (g : Nat × List Nat) (q : Nat)
    (h : g.1 + 4 ≤ q ∨ q + 4 ≤ g.1) :
    read4 (resolveOne labels code g) q = read4 code q := by
  rcases hf : findLabelPos labels g.2 with _ | t
  · simp [resolveOne, hf]
  · simp only [resolveOne, hf]
    exact read4_patch4_disjoint code g.1 _ q h

theorem read4_resolveFold_disjoint (labels : List (List Nat × Nat)) :
    ∀ (fs : List (Nat × List Nat)) (code : List Nat) (q : Nat),
    (∀ g ∈ fs, g.1 + 4 ≤ q ∨ q + 4 ≤ g.1) →
    read4 (fs.foldl (resolveOne labels) code) q = read4 code q := by
  intro fs
  induction fs with
  | nil =>
    intro code q _
    rfl
  | cons g rest ih =>
    intro code q hdisj
    simp only [List.foldl_cons]
    rw [ih _ q (fun b hb => hdisj b (List.mem_cons_of_mem g hb))]
    exact read4_resolveOne_disjoint labels code g q
      (hdisj g (List.mem_cons_self g rest))

theorem resolveFold_read4 (labels : List (List Nat × Nat)) :
    ∀ (fs : List (Nat × List Nat)) (code : List Nat) (f : Nat × List Nat),
    f ∈ fs →
    List.Pairwise (fun a b => a.1 + 4 ≤ b.1) fs →
    (∀ g ∈ fs, g.1 + 4 ≤ code.length) →
    (∀ t, findLabelPos labels f.2 = some t →
      read4 (fs.foldl (resolveOne labels) code) f.1 = le32 (fixEnc t f.1)) ∧
    (findLabelPos labels f.2 = none →
      read4 (fs.foldl (resolveOne labels) code) f.1 = read4 code f.1) := by
  intro fs
  induction fs with
  | nil =>
    intro code f hmem
    exact absurd hmem (List.not_mem_nil f)
  | cons g rest ih =>
    intro code f hmem hpw hb
    simp only [List.foldl_cons]
    rcases List.mem_cons.mp hmem with rfl | hmem'
    · have hafter : ∀ b ∈ rest, b.1 + 4 ≤ f.1 ∨ f.1 + 4 ≤ b.1 := by
        intro b hb2
        right
        exact (List.pairwise_cons.mp hpw).1 b hb2
      constructor
      · intro t ht
        rw [read4_resolveFold_disjoint labels rest _ f.1 hafter]
        simp only [resolveOne, ht]
        exact read4_patch4_self code f.1 _ (hb f (List.mem_cons_self f rest))
      · intro hn
        rw [read4_resolveFold_disjoint labels rest _ f.1 hafter]
        simp [resolveOne, hn]
    · have hlen := resolveOne_length labels code g
      have hpw' := (List.pairwise_cons.mp hpw).2
      have hb' : ∀ b ∈ rest, b.1 + 4 ≤ (resolveOne labels code g).length := by
        intro b hb2
        rw [hlen]
        exact hb b (List.mem_cons_of_mem g hb2)
      have hgf : g.1 + 4 ≤ f.1 := (List.pairwise_cons.mp hpw).1 f hmem'
      have hpres : read4 (resolveOne labels code g) f.1 = read4 code f.1 :=
        read4_resolveOne_disjoint labels code g f.1 (Or.inl hgf)
      obtain ⟨ihs, ihn⟩ := ih (resolveOne labels code g) f hmem' hpw' hb'
      exact ⟨fun t ht => ihs t ht, fun hn => (ihn hn).trans hpres⟩

/-- C1: for every recorded fixup (the recorded windows are 4 bytes wide,
pairwise separated and in bounds, which `add_fixup`'s placeholder emission
guarantees in the compiler), after `resolve_fixups` the four bytes at the
fixup's offset are the little-endian two's-complement encoding of
`target − (fix_pos + 4)` for the FIRST label in the table whose name
matches; if no label matches, the four bytes are untouched — and
`add_fixup` records the fixup at the current cursor and emits the four
zero placeholder bytes, so unmatched fixups remain zero. -/
theorem resolve_fixups_first_label_spec :
    (∀ (cg : CodeGen) (f : Nat × List Nat),
      f ∈ cg.fixups →
      List.Pairwise (fun a b => a.1 + 4 ≤ b.1) cg.fixups →
      (∀ g ∈ cg.fixups, g.1 + 4 ≤ cg.code.length) →
      (∀ t, findLabelPos cg.labels f.2 = some t →
        read4 (resolve_fixups cg).code f.1 = le32 (fixEnc t f.1)) ∧
      (findLabelPos cg.labels f.2 = none →
        read4 (resolve_fixups cg).code f.1 = read4 cg.code f.1)) ∧
    (∀ (cg : CodeGen) (l : List Nat),
      cg.fixups.length < MAX_LABELS →
      cg.code.length + 4 ≤ MAX_CODE →
      add_fixup cg l = { cg with
        fixups := cg.fixups ++ [(cg.code.length, l)],
        code := cg.code ++ [0, 0, 0, 0] }) := by
  constructor
  · intro cg f hmem hpw hb
    exact resolveFold_read4 cg.labels cg.fixups cg.code f hmem hpw hb
  · intro cg l hroom hcap
    unfold add_fixup
    rw [if_pos hroom]
    rw [emit_u32_app _ _ (by
      show ({ cg with fixups := cg.fixups ++ [(cg.code.length, l)] }
        : CodeGen).code.length + 4 ≤ MAX_CODE
      exact hcap)]
    rfl

/-- Witness for C1: with fixups at offsets 1 and 7 in an 11-byte buffer and
one label `f` at 11, the first window resolves to `11 − 1 − 4 = 6` and the
unmatched window stays zero; `add_fixup` on the empty generator records
offset 0 and emits four zeros. -/
theorem resolve_fixups_first_label_spec_witness :
    read4 (resolve_fixups { cg0 with
        code := [0xe8, 0, 0, 0, 0, 0x90, 0xe8, 0, 0, 0, 0],
        fixups := [(1, [102]), (7, [103])],
        labels := [([102], 11)] }).code 1 = [6, 0, 0, 0] ∧
    read4 (resolve_fixups { cg0 with
        code := [0xe8, 0, 0, 0, 0, 0x90, 0xe8, 0, 0, 0, 0],
        fixups := [(1, [102]), (7, [103])],
        labels := [([102], 11)] }).code 7 = [0, 0, 0, 0] ∧
    add_fixup cg0 [102] = { cg0 with
        fixups := [(0, [102])], code := [0, 0, 0, 0] } := by
  refine ⟨?_, ?_, ?_⟩
  · exact ((resolve_fixups_first_label_spec.1 { cg0 with
        code := [0xe8, 0, 0, 0, 0, 0x90, 0xe8, 0, 0, 0, 0],
        fixups := [(1, [102]), (7, [103])],
        labels := [([102], 11)] } (1, [102]) (by decide) (by decide)
      (by decide)).1 11 (by decide)).trans (by decide)
  · exact ((resolve_fixups_first_label_spec.1 { cg0 with
        code := [0xe8, 0, 0, 0, 0, 0x90, 0xe8, 0, 0, 0, 0],
        fixups := [(1, [102]), (7, [103])],
        labels := [([102], 11)] } (7, [103]) (by decide) (by decide)
      (by decide)).2 (by decide)).trans (by decide)
  · exact (resolve_fixups_first_label_spec.2 cg0 [102] (by decide)
      (by decide)).trans (by decide)

-- ═══════════════════════════════════════════════════════════════
-- C4: call sites and parameter binding
-- ═══════════════════════════════════════════════════════════════

theorem cgExt_refl (cg : CodeGen) : CgExt cg cg := ⟨[], (List.append_nil _).symm⟩

theorem cgExt_trans {a b c : CodeGen} (h1 : CgExt a b) (h2 : CgExt b c) :
    CgExt a c := by
  obtain ⟨d1, e1⟩ := h1
  obtain ⟨d2, e2⟩ := h2
  exact ⟨d1 ++ d2, by rw [e2, e1, List.append_assoc]⟩

theorem cgExt_of_code_eq {a b : CodeGen} (h : b.code = a.code) : CgExt a b :=
  ⟨[], by rw [h, List.append_nil]⟩

theorem cgExt_length {a b : CodeGen} (h : CgExt a b) :
    a.code.length ≤ b.code.length := by
  obtain ⟨d, e⟩ := h
  rw [e, List.length_append]
  omega

theorem ext_emit_byte (cg : CodeGen) (b : Nat) : CgExt cg (emit_byte cg b) := by
  unfold emit_byte
  split
  · exact ⟨[b % 256], rfl⟩
  · exact cgExt_refl cg

theorem ext_emit_bytes (bs : List Nat) : ∀ cg : CodeGen,
    CgExt cg (emit_bytes cg bs) := by
  induction bs with
  | nil =>
    intro cg
    exact cgExt_refl cg
  | cons b bs ih =>
    intro cg
    rw [emit_bytes_cons]
    exact cgExt_trans (ext_emit_byte cg b) (ih _)

theorem cgExt_emit_byte_of {a b : CodeGen} (x : Nat) (h : CgExt a b) :
    CgExt a (emit_byte b x) := cgExt_trans h (ext_emit_byte b x)

theorem cgExt_emit_bytes_of {a b : CodeGen} (bs : List Nat) (h : CgExt a b) :
    CgExt a (emit_bytes b bs) := cgExt_trans h (ext_emit_bytes bs b)

theorem cgExt_emit_u32_of {a b : CodeGen} (v : Nat) (h : CgExt a b) :
    CgExt a (emit_u32 b v) := cgExt_emit_bytes_of _ h

theorem cgExt_emit_u64_of {a b : CodeGen} (v : Nat) (h : CgExt a b) :
    CgExt a (emit_u64 b v) := cgExt_emit_u32_of _ (cgExt_emit_u32_of _ h)

theorem cgExt_emit_i32_of {a b : CodeGen} (v : Int) (h : CgExt a b) :
    CgExt a (emit_i32 b v) := cgExt_emit_u32_of _ h

theorem cgExt_add_fixup_of {a b : CodeGen} (l : List Nat) (h : CgExt a b) :
    CgExt a (add_fixup b l) := by
  refine cgExt_trans h ?_
  unfold add_fixup
  dsimp only
  refine cgExt_trans (cgExt_of_code_eq (a := b) ?_) (ext_emit_bytes _ _)
  split <;> rfl

theorem cgExt_add_label_of {a b : CodeGen} (l : List Nat) (h : CgExt a b) :
    CgExt a (add_label b l) := by
  refine cgExt_trans h ?_
  apply cgExt_of_code_eq
  unfold add_label
  split <;> rfl

theorem ite_cg (P : Prop) [Decidable P] (f : Core → Core) (k : Core)
    (hf : (f k).cg = k.cg) : (if P then f k else k).cg = k.cg := by
  split
  · exact hf
  · rfl

theorem openParen_cg (k : Core) : (openParen k).cg = k.cg := by
  unfold openParen
  dsimp only
  rw [ite_cg _ adv _ ((adv_sbp _).2.2)]
  exact (skip_whitespace_sbp k).2.2

theorem closeParen_cg (k : Core) : (closeParen k).cg = k.cg := by
  unfold closeParen
  dsimp only
  rw [ite_cg _ adv _ ((adv_sbp _).2.2)]
  exact (skip_whitespace_sbp k).2.2

theorem sysSep_cg (k : Core) : (sysSep k).cg = gen_push_rax k.cg := by
  unfold sysSep
  dsimp only
  rw [ite_cg _ adv _ ((adv_sbp _).2.2)]
  exact (skip_whitespace_sbp _).2.2

theorem pokeMid_cg (k : Core) : (pokeMid k).cg = gen_push_rax k.cg := by
  unfold pokeMid
  dsimp only
  rw [(skip_whitespace_sbp _).2.2]
  rw [ite_cg _ adv _ ((adv_sbp _).2.2)]
  exact (skip_whitespace_sbp _).2.2

theorem ext_gen_push_rax (cg : CodeGen) : CgExt cg (gen_push_rax cg) :=
  ext_emit_byte _ _

theorem ext_gen_pop_rax (cg : CodeGen) : CgExt cg (gen_pop_rax cg) :=
  ext_emit_byte _ _

theorem ext_gen_pop_rbx (cg : CodeGen) : CgExt cg (gen_pop_rbx cg) :=
  ext_emit_byte _ _

theorem ext_gen_syscall (cg : CodeGen) : CgExt cg (gen_syscall cg) :=
  ext_emit_bytes _ _

theorem ext_gen_mov_rdi_rax (cg : CodeGen) : CgExt cg (gen_mov_rdi_rax cg) :=
  ext_emit_bytes _ _

theorem ext_gen_mov_rsi_rax (cg : CodeGen) : CgExt cg (gen_mov_rsi_rax cg) :=
  ext_emit_bytes _ _

theorem ext_gen_mov_rdx_rax (cg : CodeGen) : CgExt cg (gen_mov_rdx_rax cg) :=
  ext_emit_bytes _ _

theorem ext_gen_div_rax_rbx (cg : CodeGen) : CgExt cg (gen_div_rax_rbx cg) :=
  cgExt_emit_bytes_of _ (ext_emit_bytes _ _)

theorem ext_gen_sub_rsp (cg : CodeGen) (n : Int) : CgExt cg (gen_sub_rsp cg n) :=
  cgExt_emit_i32_of _ (ext_emit_bytes _ _)

theorem ext_gen_add_rsp (cg : CodeGen) (n : Int) : CgExt cg (gen_add_rsp cg n) :=
  cgExt_emit_i32_of _ (ext_emit_bytes _ _)

theorem ext_gen_mov_rax_imm (cg : CodeGen) (v : Int) :
    CgExt cg (gen_mov_rax_imm cg v) :=
  cgExt_emit_u64_of _ (ext_emit_bytes _ _)

theorem ext_gen_mov_rdi_imm (cg : CodeGen) (v : Int) :
    CgExt cg (gen_mov_rdi_imm cg v) :=
  cgExt_emit_u64_of _ (ext_emit_bytes _ _)

theorem ext_gen_mov_rsi_imm (cg : CodeGen) (v : Int) :
    CgExt cg (gen_mov_rsi_imm cg v) :=
  cgExt_emit_u64_of _ (ext_emit_bytes _ _)

theorem ext_gen_mov_rdx_imm (cg : CodeGen) (v : Int) :
    CgExt cg (gen_mov_rdx_imm cg v) :=
  cgExt_emit_u64_of _ (ext_emit_bytes _ _)

theorem ext_gen_mov_rax_abs (cg : CodeGen) (addr : Nat) :
    CgExt cg (gen_mov_rax_abs cg addr) :=
  cgExt_emit_bytes_of _ (cgExt_emit_u64_of _ (ext_emit_bytes _ _))

theorem ext_gen_mov_rax_rbp_off (cg : CodeGen) (off : Int) :
    CgExt cg (gen_mov_rax_rbp_off cg off) :=
  cgExt_emit_i32_of _ (ext_emit_bytes _ _)

theorem ext_gen_call (cg : CodeGen) (l : List Nat) : CgExt cg (gen_call cg l) :=
  cgExt_add_fixup_of _ (ext_emit_byte _ _)

theorem ext_exprNum (k : Core) : CgExt k.cg (exprNum k).cg := by
  unfold exprNum
  rcases hp : parse_number k with ⟨k2, v⟩
  dsimp only
  have hcg : k2.cg = k.cg := by
    have h := parse_number_sbp k
    rw [hp] at h
    exact h.2.2
  rw [hcg]
  exact ext_gen_mov_rax_imm k.cg v

theorem ext_exprStr (k : Core) : CgExt k.cg (exprStr k).cg := by
  unfold exprStr
  rcases hp : parse_string k with ⟨k2, s⟩
  dsimp only
  have hcg : k2.cg = k.cg := by
    have h := parse_string_sbp k
    rw [hp] at h
    exact h.2.2
  rw [hcg]
  exact cgExt_emit_i32_of _ (cgExt_emit_bytes_of _ (cgExt_emit_bytes_of _
    (cgExt_emit_byte_of _ (ext_emit_byte _ _))))

theorem ext_exprVar (name : List Nat) (k : Core) :
    CgExt k.cg (exprVar name k).cg := by
  unfold exprVar
  rcases hfv : find_var k.cg.vars name with _ | v
  · dsimp only
    exact ext_gen_mov_rax_imm k.cg 0
  · dsimp only
    unfold gen_load_var
    split
    · exact ext_gen_mov_rax_abs k.cg _
    · exact ext_gen_mov_rax_rbp_off k.cg _

theorem ext_getcharEmit (cg : CodeGen) : CgExt cg (getcharEmit cg) := by
  unfold getcharEmit
  exact cgExt_trans (ext_gen_sub_rsp cg 16) (cgExt_trans
    (ext_gen_mov_rax_imm _ 0) (cgExt_trans (ext_gen_mov_rdi_imm _ 0)
    (cgExt_trans (ext_emit_bytes _ _) (cgExt_trans (ext_gen_mov_rdx_imm _ 1)
    (cgExt_trans (ext_gen_syscall _) (cgExt_trans (ext_emit_bytes _ _)
    (ext_gen_add_rsp _ 16)))))))

theorem ext_getcharExpr (k : Core) : CgExt k.cg (getcharExpr k).cg := by
  unfold getcharExpr
  dsimp only
  rw [ite_cg _ adv _ ((adv_sbp _).2.2)]
  exact ext_getcharEmit k.cg

theorem ext_peekTail (k : Core) : CgExt k.cg (peekTail k).cg := by
  unfold peekTail
  dsimp only
  rw [closeParen_cg]
  exact ext_emit_bytes _ _

theorem ext_pokeMid (k : Core) : CgExt k.cg (pokeMid k).cg := by
  rw [pokeMid_cg]
  exact ext_gen_push_rax _

theorem ext_pokeExprTail (k : Core) : CgExt k.cg (pokeExprTail k).cg := by
  unfold pokeExprTail
  dsimp only
  rw [closeParen_cg]
  exact cgExt_trans (ext_gen_pop_rbx _) (ext_emit_bytes _ _)

theorem ext_sysSep (k : Core) : CgExt k.cg (sysSep k).cg := by
  rw [sysSep_cg]
  exact ext_gen_push_rax _

theorem ext_opEnter1 (k : Core) : CgExt k.cg (opEnter1 k).cg := by
  unfold opEnter1
  dsimp only
  rw [(adv_sbp _).2.2]
  exact ext_gen_push_rax _

theorem ext_opEnter2 (k : Core) : CgExt k.cg (opEnter2 k).cg := by
  unfold opEnter2
  dsimp only
  rw [(adv_sbp _).2.2, (adv_sbp _).2.2]
  exact ext_gen_push_rax _

theorem ext_opAfter (bs : List Nat) (k : Core) :
    CgExt k.cg (opAfter bs k).cg := by
  unfold opAfter
  dsimp only
  exact cgExt_trans (ext_gen_pop_rbx _) (ext_emit_bytes _ _)

theorem ext_divAfter (k : Core) : CgExt k.cg (divAfter k).cg := by
  unfold divAfter
  dsimp only
  exact cgExt_trans (ext_emit_bytes _ _) (cgExt_trans (ext_gen_pop_rax _)
    (ext_gen_div_rax_rbx _))

theorem ext_sysTail3 (num : Nat) (cg : CodeGen) : CgExt cg (sysTail3 num cg) := by
  unfold sysTail3
  exact cgExt_trans (ext_gen_mov_rdx_rax cg) (cgExt_trans (ext_gen_pop_rax _)
    (cgExt_trans (ext_gen_mov_rsi_rax _) (cgExt_trans (ext_gen_pop_rax _)
    (cgExt_trans (ext_gen_mov_rdi_rax _) (cgExt_trans (ext_gen_mov_rax_imm _ _)
    (ext_gen_syscall _))))))

theorem ext_mmapTail (cg : CodeGen) : CgExt cg (mmapTail cg) := by
  unfold mmapTail
  exact cgExt_trans (ext_emit_bytes _ _) (cgExt_trans (ext_emit_bytes _ _)
    (cgExt_trans (ext_emit_bytes _ _) (cgExt_trans (ext_gen_pop_rax _)
    (cgExt_trans (ext_gen_mov_rdx_rax _) (cgExt_trans (ext_gen_pop_rax _)
    (cgExt_trans (ext_gen_mov_rsi_rax _) (cgExt_trans (ext_gen_pop_rax _)
    (cgExt_trans (ext_gen_mov_rdi_rax _) (cgExt_trans (ext_gen_mov_rax_imm _ _)
    (ext_gen_syscall _))))))))))

theorem ext_userCallTail (name : List Nat) (argc : Nat) (k : Core) :
    CgExt k.cg (userCallTail name argc k).cg := by
  unfold userCallTail
  dsimp only
  have h1 : (if peekC k == 41 then adv k else k).cg = k.cg :=
    ite_cg _ adv k ((adv_sbp _).2.2)
  split
  · dsimp only
    rw [h1]
    exact cgExt_trans (ext_gen_call _ _) (ext_gen_add_rsp _ _)
  · dsimp only
    rw [h1]
    exact ext_gen_call _ _

theorem ext_onCore_sysSep {T : Type} (c : Comp T) :
    CgExt c.core.cg (onCore sysSep c).core.cg := ext_sysSep c.core

theorem cgExt_step {T : Type} {a : CodeGen} {c : Comp T} (E : Comp T → Comp T)
    (hE : ∀ c : Comp T, CgExt c.core.cg (E c).core.cg) (h : CgExt a c.core.cg) :
    CgExt a (E c).core.cg := cgExt_trans h (hE c)

theorem cgExt_step_sysSep {T : Type} {a : CodeGen} {c : Comp T}
    (h : CgExt a c.core.cg) : CgExt a (onCore sysSep c).core.cg :=
  cgExt_trans h (ext_sysSep c.core)

theorem ext_sys3 {T : Type} (E : Comp T → Comp T) (num : Nat)
    (hE : ∀ c : Comp T, CgExt c.core.cg (E c).core.cg) (c : Comp T) :
    CgExt c.core.cg (sys3 E num c).core.cg := by
  unfold sys3
  dsimp only [onCore]
  refine cgExt_trans (hE c) ?_
  refine cgExt_trans (ext_sysSep (E c).core) ?_
  refine cgExt_trans (hE ⟨sysSep (E c).core, (E c).tel⟩) ?_
  refine cgExt_trans (ext_sysSep (E ⟨sysSep (E c).core, (E c).tel⟩).core) ?_
  refine cgExt_trans (hE ⟨sysSep (E ⟨sysSep (E c).core, (E c).tel⟩).core, (E ⟨sysSep (E c).core, (E c).tel⟩).tel⟩) ?_
  exact ext_sysTail3 num _

theorem ext_sys1 {T : Type} (E : Comp T → Comp T) (num : Nat)
    (hE : ∀ c : Comp T, CgExt c.core.cg (E c).core.cg) (c : Comp T) :
    CgExt c.core.cg (sys1 E num c).core.cg := by
  unfold sys1
  dsimp only [onCore]
  refine cgExt_trans (hE c) ?_
  exact cgExt_trans (ext_gen_mov_rdi_rax _) (cgExt_trans
    (ext_gen_mov_rax_imm _ _) (ext_gen_syscall _))

theorem ext_sys6 {T : Type} (E : Comp T → Comp T)
    (hE : ∀ c : Comp T, CgExt c.core.cg (E c).core.cg) (c : Comp T) :
    CgExt c.core.cg (sys6 E c).core.cg := by
  unfold sys6
  dsimp only [onCore]
  refine cgExt_trans (hE c) ?_
  refine cgExt_trans (ext_sysSep (E c).core) ?_
  refine cgExt_trans (hE ⟨sysSep (E c).core, (E c).tel⟩) ?_
  refine cgExt_trans (ext_sysSep (E ⟨sysSep (E c).core, (E c).tel⟩).core) ?_
  refine cgExt_trans (hE ⟨sysSep (E ⟨sysSep (E c).core, (E c).tel⟩).core, (E ⟨sysSep (E c).core, (E c).tel⟩).tel⟩) ?_
  refine cgExt_trans (ext_sysSep (E ⟨sysSep (E ⟨sysSep (E c).core, (E c).tel⟩).core, (E ⟨sysSep (E c).core, (E c).tel⟩).tel⟩).core) ?_
  refine cgExt_trans (hE ⟨sysSep (E ⟨sysSep (E ⟨sysSep (E c).core, (E c).tel⟩).core, (E ⟨sysSep (E c).core, (E c).tel⟩).tel⟩).core, (E ⟨sysSep (E ⟨sysSep (E c).core, (E c).tel⟩).core, (E ⟨sysSep (E c).core, (E c).tel⟩).tel⟩).tel⟩) ?_
  refine cgExt_trans (ext_sysSep (E ⟨sysSep (E ⟨sysSep (E ⟨sysSep (E c).core, (E c).tel⟩).core, (E ⟨sysSep (E c).core, (E c).tel⟩).tel⟩).core, (E ⟨sysSep (E ⟨sysSep (E c).core, (E c).tel⟩).core, (E ⟨sysSep (E c).core, (E c).tel⟩).tel⟩).tel⟩).core) ?_
  refine cgExt_trans (hE ⟨sysSep (E ⟨sysSep (E ⟨sysSep (E ⟨sysSep (E c).core, (E c).tel⟩).core, (E ⟨sysSep (E c).core, (E c).tel⟩).tel⟩).core, (E ⟨sysSep (E ⟨sysSep (E c).core, (E c).tel⟩).core, (E ⟨sysSep (E c).core, (E c).tel⟩).tel⟩).tel⟩).core, (E ⟨sysSep (E ⟨sysSep (E ⟨sysSep (E c).core, (E c).tel⟩).core, (E ⟨sysSep (E c).core, (E c).tel⟩).tel⟩).core, (E ⟨sysSep (E ⟨sysSep (E c).core, (E c).tel⟩).core, (E ⟨sysSep (E c).core, (E c).tel⟩).tel⟩).tel⟩).tel⟩) ?_
  refine cgExt_trans (ext_sysSep (E ⟨sysSep (E ⟨sysSep (E ⟨sysSep (E ⟨sysSep (E c).core, (E c).tel⟩).core, (E ⟨sysSep (E c).core, (E c).tel⟩).tel⟩).core, (E ⟨sysSep (E ⟨sysSep (E c).core, (E c).tel⟩).core, (E ⟨sysSep (E c).core, (E c).tel⟩).tel⟩).tel⟩).core, (E ⟨sysSep (E ⟨sysSep (E ⟨sysSep (E c).core, (E c).tel⟩).core, (E ⟨sysSep (E c).core, (E c).tel⟩).tel⟩).core, (E ⟨sysSep (E ⟨sysSep (E c).core, (E c).tel⟩).core, (E ⟨sysSep (E c).core, (E c).tel⟩).tel⟩).tel⟩).tel⟩).core) ?_
  refine cgExt_trans (hE ⟨sysSep (E ⟨sysSep (E ⟨sysSep (E ⟨sysSep (E ⟨sysSep (E c).core, (E c).tel⟩).core, (E ⟨sysSep (E c).core, (E c).tel⟩).tel⟩).core, (E ⟨sysSep (E ⟨sysSep (E c).core, (E c).tel⟩).core, (E ⟨sysSep (E c).core, (E c).tel⟩).tel⟩).tel⟩).core, (E ⟨sysSep (E ⟨sysSep (E ⟨sysSep (E c).core, (E c).tel⟩).core, (E ⟨sysSep (E c).core, (E c).tel⟩).tel⟩).core, (E ⟨sysSep (E ⟨sysSep (E c).core, (E c).tel⟩).core, (E ⟨sysSep (E c).core, (E c).tel⟩).tel⟩).tel⟩).tel⟩).core, (E ⟨sysSep (E ⟨sysSep (E ⟨sysSep (E ⟨sysSep (E c).core, (E c).tel⟩).core, (E ⟨sysSep (E c).core, (E c).tel⟩).tel⟩).core, (E ⟨sysSep (E ⟨sysSep (E c).core, (E c).tel⟩).core, (E ⟨sysSep (E c).core, (E c).tel⟩).tel⟩).tel⟩).core, (E ⟨sysSep (E ⟨sysSep (E ⟨sysSep (E c).core, (E c).tel⟩).core, (E ⟨sysSep (E c).core, (E c).tel⟩).tel⟩).core, (E ⟨sysSep (E ⟨sysSep (E c).core, (E c).tel⟩).core, (E ⟨sysSep (E c).core, (E c).tel⟩).tel⟩).tel⟩).tel⟩).tel⟩) ?_
  exact ext_mmapTail _

end Wave
